import Mathlib

/-!
# Spec2Proof — LuminaChain execution core, shallow embedding

A shallow embedding of the LuminaChain deterministic execution core
(`lumina-execution`, `lumina-consensus` fork choice, `lumina-types` Merkle
transactions root), with theorems settling the frozen claims.

Modelling conventions, chosen once and used throughout:
* `u64` values are `Nat` with explicit bounds: every `checked_*` operation of
  the source is a matching `Option`-returning function that fails at `2^64`,
  and every `saturating_*` operation clamps at `2^64 - 1` (`Nat` subtraction
  is already saturating).
* The Rust `f64` field `reserve_ratio` is modelled as an exact rational `ℚ`;
  the source only writes it via `recalculate_ratios` as `pool / supply`,
  and only compares it against the constants `0.85`, `0.95` and `1.0`.
* `HashMap`s are association lists (`List (key × value)`); `entry(..).or_default()`
  appends a default entry when the key is absent, mirroring the observable
  map contents.  Cryptographic primitives (signature verification, zk proof
  verification, blake3 tags) are fields of an explicit `CryptoEnv` parameter,
  since their bit-level behaviour is outside the execution core.
* Rust's `&mut GlobalState` plus `Result<()>` is a function
  `GlobalState → Bool × GlobalState`: the returned state is the state as left
  behind by the call, also on error (`false`), exactly as in the source,
  where `bail!` returns without undoing prior writes.
-/

namespace Lumina

/-- 2^64, the first value outside `u64`. -/
def U64LIMIT : Nat := 2 ^ 64

/-- Rust `u64::checked_add`. -/
def checkedAdd (a b : Nat) : Option Nat :=
  if a + b < U64LIMIT then some (a + b) else none

/-- Rust `u64::checked_sub`. -/
def checkedSub (a b : Nat) : Option Nat :=
  if b ≤ a then some (a - b) else none

/-- Rust `u64::checked_mul`. -/
def checkedMul (a b : Nat) : Option Nat :=
  if a * b < U64LIMIT then some (a * b) else none

/-- Rust `u64::checked_div`. -/
def checkedDiv (a b : Nat) : Option Nat :=
  if b = 0 then none else some (a / b)

/-- Rust `u64::saturating_add`. -/
def satAdd (a b : Nat) : Nat := min (a + b) (U64LIMIT - 1)

/-- Rust `u64::saturating_sub` (truncated `Nat` subtraction). -/
def satSub (a b : Nat) : Nat := a - b

/-- Rust `u64::saturating_mul`. -/
def satMul (a b : Nat) : Nat := min (a * b) (U64LIMIT - 1)

/-- 32-byte addresses / public keys, abstracted. -/
abbrev Addr := Nat

/-- Opaque byte strings (proofs, keys, signatures). -/
abbrev Bytes := List Nat

/-- `lumina_types::state::StreamState`. -/
structure StreamState where
  recipient : Addr
  amount_per_sec : Nat
  start_timestamp : Nat
  end_timestamp : Nat
  withdrawn : Nat
deriving DecidableEq, Repr

/-- `lumina_types::state::YieldPosition`. -/
structure YieldPosition where
  token_id : Nat
  principal : Nat
  maturity_height : Nat
  issued_height : Nat
deriving DecidableEq, Repr

/-- `lumina_types::state::RedemptionRequest`. -/
structure RedemptionRequest where
  address : Addr
  amount : Nat
  timestamp : Nat
deriving DecidableEq, Repr

/-- `lumina_types::state::ValidatorState`. -/
structure ValidatorState where
  pubkey : Addr
  stake : Nat
  power : Nat
  is_green : Bool
  energy_proof : Option Bytes
deriving DecidableEq, Repr

/-- `lumina_types::state::CustodianState`. -/
structure CustodianState where
  pubkey : Addr
  stake : Nat
  mpc_pubkeys : List Addr
  registered_height : Nat
deriving DecidableEq, Repr

/-- `lumina_types::state::RWAListing`. -/
structure RWAListing where
  owner : Addr
  asset_description : String
  attestation_proof : Bytes
  attested_value : Nat
  maturity_date : Option Nat
  collateral_eligibility : Bool
  is_active : Bool
  pledged_amount : Nat
deriving DecidableEq, Repr

/-- `lumina_types::state::AccountState` (with the `custom_balances` map the
executor uses on it).  Field defaults mirror Rust `Default`. -/
structure AccountState where
  nonce : Nat := 0
  lusd_balance : Nat := 0
  ljun_balance : Nat := 0
  lumina_balance : Nat := 0
  commitment : Option Nat := none
  passkey_device_key : Option Bytes := none
  guardians : List Addr := []
  pq_pubkey : Option Bytes := none
  epoch_tx_volume : Nat := 0
  last_reward_epoch : Nat := 0
  credit_score : Nat := 0
  active_streams : List StreamState := []
  yield_positions : List YieldPosition := []
  pending_flash_mint : Nat := 0
  pending_flash_collateral : Nat := 0
  custom_balances : List (String × Nat) := []
deriving DecidableEq, Repr

instance : Inhabited AccountState := ⟨{}⟩

/-- `lumina_types::state::GlobalState`.  Maps are association lists; the
Rust `f64` `reserve_ratio` is an exact rational (default `0.0`). -/
structure GlobalState where
  accounts : List (Addr × AccountState) := []
  total_lusd_supply : Nat := 0
  total_ljun_supply : Nat := 0
  stabilization_pool_balance : Nat := 0
  reserve_ratio : ℚ := 0
  oracle_prices : List (String × Nat) := []
  validators : List ValidatorState := []
  circuit_breaker_active : Bool := false
  fair_redeem_queue : List RedemptionRequest := []
  last_rebalance_height : Nat := 0
  insurance_fund_balance : Nat := 0
  custodians : List CustodianState := []
  last_reserve_rotation_height : Nat := 0
  compliance_circuits : List (Nat × Bytes) := []
  rwa_listings : List (Nat × RWAListing) := []
  next_rwa_id : Nat := 0
  trusted_credit_oracles : List Addr := []
  used_credit_proofs : List Nat := []
  next_yield_token_id : Nat := 0
  health_index : Nat := 0
  pending_flash_mints : Nat := 0
  current_epoch : Nat := 0
  velocity_reward_pool : Nat := 0
  last_por_timestamp : Nat := 0
  last_por_hash : Option Nat := none
  executed_batch_matches : List Nat := []
deriving DecidableEq, Repr

instance : Inhabited GlobalState := ⟨{}⟩

/-- `lumina_types::instruction::AssetType`. -/
inductive AssetType where
  | LUSD
  | LJUN
  | Lumina
  | Custom (ticker : String)
deriving DecidableEq, Repr

/-- `lumina_types::instruction::StablecoinInstruction` — the full closed
instruction set of the executor. -/
inductive StablecoinInstruction where
  | RegisterAsset (ticker : String) (decimals : Nat)
  | MintSenior (amount collateral_amount : Nat) (proof : Bytes)
  | RedeemSenior (amount : Nat)
  | MintJunior (amount collateral_amount : Nat)
  | RedeemJunior (amount : Nat)
  | Burn (amount : Nat) (asset : AssetType)
  | Transfer (dest : Addr) (amount : Nat) (asset : AssetType)
  | RebalanceTranches
  | DistributeYield (total_yield : Nat)
  | TriggerStabilizer
  | RunCircuitBreaker (active : Bool)
  | FairRedeemQueue (batch_size : Nat)
  | ConfidentialTransfer (commitment : Nat) (proof : Bytes)
  | ProveCompliance (tx_hash : Nat) (proof : Bytes)
  | ZkTaxAttest (period : Nat) (proof : Bytes)
  | MultiJurisdictionalCheck (jurisdiction_id : Nat) (proof : Bytes)
  | UpdateOracle (asset : String) (price : Nat) (timestamp : Nat) (signature : Bytes)
  | SubmitZkPoR (proof : Bytes) (total_reserves : Nat) (timestamp : Nat)
  | InstantFiatBridge (amount : Nat) (target_bank_id : Nat) (mpc_sig : Bytes)
  | ZeroSlipBatchMatch (orders : List Nat)
  | DynamicHedge (ratio_bps : Nat)
  | GeoRebalance (zone_id : Nat)
  | VelocityIncentive (multiplier_bps : Nat)
  | StreamPayment (dest : Addr) (amount_per_sec duration : Nat)
  | RegisterValidator (pubkey : Addr) (stake : Nat)
  | Vote (proposal_id : Nat) (approve : Bool)
  | CreatePasskeyAccount (device_key : Bytes) (guardians : List Addr)
  | RecoverSocial (new_device_key : Bytes) (guardian_signatures : List Bytes)
  | ClaimVelocityReward (epoch : Nat) (tx_volume : Nat)
  | RegisterCustodian (stake : Nat) (mpc_pubkeys : List Addr)
  | RotateReserves (new_custodian_set : List Addr)
  | ClaimInsurance (loss_proof : Bytes) (claimed_amount : Nat)
  | SwitchToPQSignature (new_pq_pubkey : Bytes)
  | RegisterGreenValidator (energy_proof : Bytes)
  | UploadComplianceCircuit (circuit_id : Nat) (verifier_key : Bytes)
  | FlashMint (amount : Nat) (collateral_asset : AssetType)
      (collateral_amount : Nat) (commitment : Nat)
  | FlashBurn (amount : Nat)
  | InstantRedeem (amount : Nat) (destination : Addr)
  | MintWithCreditScore (amount collateral_amount : Nat)
      (credit_score_proof : Bytes) (min_score_threshold : Nat) (oracle : Addr)
  | WrapToYieldToken (amount maturity_blocks : Nat)
  | UnwrapYieldToken (token_id : Nat)
  | ListRWA (asset_description : String) (attested_value : Nat)
      (attestation_proof : Bytes) (maturity_date : Option Nat)
      (collateral_eligibility : Bool)
  | UseRWAAsCollateral (rwa_id : Nat) (amount_to_pledge : Nat)
  | ComputeHealthIndex
deriving DecidableEq, Repr

/-- `lumina_types::transaction::Transaction`. -/
structure Transaction where
  sender : Addr
  nonce : Nat
  instruction : StablecoinInstruction
  signature : Bytes
  gas_limit : Nat := 0
  gas_price : Nat := 0
deriving DecidableEq, Repr

/-- The cryptographic primitives the executor consumes
(`lumina-crypto` signature checks; `lumina-crypto::zk` verifiers; blake3
tags).  The execution core treats all of them as opaque boolean gates /
deterministic tag functions, so they are parameters of the model. -/
structure CryptoEnv where
  /-- `verify_signature(tx.sender, tx.signing_bytes(), tx.signature).is_ok()`. -/
  verifyTxSig : Addr → Transaction → Bool
  /-- `verify_pq_signature(pq_key, tx.signing_bytes(), tx.signature).is_ok()`. -/
  verifyPqTxSig : Bytes → Transaction → Bool
  /-- `verify_signature(pubkey, message, sig).is_ok()` on raw bytes
  (guardian recovery). -/
  verifySig : Addr → Bytes → Bytes → Bool
  /-- `ZkManager::setup().verify_zk_por(proof, total)`. -/
  verifyZkPor : Bytes → Nat → Bool
  verifyConfidential : Nat → Bytes → Bool
  verifyCompliance : Nat → Bytes → Bool
  verifyTax : Nat → Bytes → Bool
  verifyMultiJur : Nat → Bytes → Bool
  verifyCredit : Bytes → Bool
  verifyInsuranceLoss : Bytes → Nat → Bool
  verifyGreenEnergy : Bytes → Bool
  verifyRwa : Bytes → Nat → Bool
  /-- `blake3::hash(bytes)` as an opaque 32-byte tag. -/
  hashBytes : Bytes → Nat
  /-- blake3 over the concatenated orders of a batch. -/
  hashOrders : List Nat → Nat
  /-- the `u16` read from the first two little-endian bytes of
  `blake3::hash(credit_score_proof)`. -/
  rawScore : Bytes → Nat

/-- An all-accepting crypto environment (used to build concrete witnesses;
the placeholder verifiers of `lumina-crypto::zk` behave this way). -/
def allOkEnv : CryptoEnv where
  verifyTxSig := fun _ _ => true
  verifyPqTxSig := fun _ _ => true
  verifySig := fun _ _ _ => true
  verifyZkPor := fun _ _ => true
  verifyConfidential := fun _ _ => true
  verifyCompliance := fun _ _ => true
  verifyTax := fun _ _ => true
  verifyMultiJur := fun _ _ => true
  verifyCredit := fun _ => true
  verifyInsuranceLoss := fun _ _ => true
  verifyGreenEnergy := fun _ => true
  verifyRwa := fun _ _ => true
  hashBytes := fun _ => 0
  hashOrders := fun _ => 0
  rawScore := fun _ => 0

/-- Look an account up, defaulting as `unwrap_or_default` does. -/
def getAcct (s : GlobalState) (a : Addr) : AccountState :=
  (s.accounts.lookup a).getD default

/-- Whether the accounts map holds a binding for `a`. -/
def hasAcct (s : GlobalState) (a : Addr) : Bool :=
  (s.accounts.lookup a).isSome

/-- `state.accounts.entry(a).or_default()` — materialise a default binding
when absent (observable map growth, even if the entry is only read). -/
def touchAcct (s : GlobalState) (a : Addr) : GlobalState :=
  if hasAcct s a then s
  else { s with accounts := s.accounts ++ [(a, default)] }

/-- Write through `entry(a).or_default()`: update the bound account in place,
appending a default-then-updated binding when absent. -/
def updAcct (s : GlobalState) (a : Addr) (f : AccountState → AccountState) :
    GlobalState :=
  if hasAcct s a then
    { s with accounts :=
        s.accounts.map (fun p => if p.1 == a then (p.1, f p.2) else p) }
  else { s with accounts := s.accounts ++ [(a, f default)] }

/-- `HashMap::insert` on an association list: replace or append. -/
def insertAssoc {β : Type} (l : List (String × β)) (k : String) (v : β) :
    List (String × β) :=
  if (l.lookup k).isSome then
    l.map (fun p => if p.1 == k then (p.1, v) else p)
  else l ++ [(k, v)]

/-- `HashMap::insert` keyed by `Nat`. -/
def insertAssocNat {β : Type} (l : List (Nat × β)) (k : Nat) (v : β) :
    List (Nat × β) :=
  if (l.lookup k).isSome then
    l.map (fun p => if p.1 == k then (p.1, v) else p)
  else l ++ [(k, v)]

/-- The `0.85` circuit-breaker threshold of `recalculate_ratios`
(`mkRat 85 100 = 85 / 100`, see `Rat.mkRat_eq_div`; the `mkRat` form keeps
the constant kernel-computable). -/
def breakerThreshold : ℚ := mkRat 85 100

/-- The `0.95` redemption-stress threshold of `RedeemSenior`/`InstantRedeem`. -/
def stressThreshold : ℚ := mkRat 95 100

/-- `lumina_execution::recalculate_ratios` — core stability math, called
after every monetary operation; auto-trips the circuit breaker below 0.85.
`mkRat p q` is exactly `(p : ℚ) / (q : ℚ)` (`Rat.mkRat_eq_div`). -/
def recalculate_ratios (s : GlobalState) : GlobalState :=
  if s.total_lusd_supply = 0 then { s with reserve_ratio := 1 }
  else
    let r : ℚ :=
      mkRat (s.stabilization_pool_balance : Int) s.total_lusd_supply
    let s1 := { s with reserve_ratio := r }
    if r < breakerThreshold then { s1 with circuit_breaker_active := true }
    else s1

/-- Truncation of a non-negative rational to `Nat`, modelling Rust's
`as u64` cast on the (non-negative) intermediate floats of the health index. -/
def ratToNat (q : ℚ) : Nat := q.floor.toNat

/-- `lumina_execution::compute_health_index`. -/
def compute_health_index (s : GlobalState) : GlobalState :=
  let score0 : Nat := 0
  let reserve_clamped : ℚ := max 0 (min s.reserve_ratio 2)
  let reserve_score := ratToNat (reserve_clamped * 1500)
  let score1 := satAdd score0 (min reserve_score 3000)
  let lusd_price := (s.oracle_prices.lookup "LUSD-USD").getD 1000000
  let peg_dev :=
    if lusd_price > 1000000 then satSub lusd_price 1000000
    else satSub 1000000 lusd_price
  let peg_score : Nat :=
    if peg_dev < 50000 then 2500 else if peg_dev < 100000 then 1500 else 500
  let score2 := satAdd score1 peg_score
  let score3 :=
    if s.circuit_breaker_active = false then satAdd score2 1500 else score2
  let score4 :=
    if s.total_lusd_supply > 0 then
      let insurance_ratio : ℚ :=
        (s.insurance_fund_balance : ℚ) / (s.total_lusd_supply : ℚ)
      let insurance_score := ratToNat (insurance_ratio * 30000)
      satAdd score3 (min insurance_score 1500)
    else satAdd score3 1500
  let total_validators := s.validators.length
  let score5 :=
    if total_validators > 0 then
      let green_count := (s.validators.filter (fun v => v.is_green)).length
      let green_pct := satMul green_count 1000 / total_validators
      satAdd score4 (min green_pct 1000)
    else satAdd score4 500
  let custodian_score := satMul (min s.custodians.length 10) 50
  let score6 := satAdd score5 custodian_score
  { s with health_index := min score6 10000 }

/-- `lumina_execution::end_block` — health index, then clear the global
flash-mint aggregate (and nothing else). -/
def end_block (s : GlobalState) : GlobalState :=
  let s1 := compute_health_index s
  { s1 with pending_flash_mints := 0 }

/-- Result of one executor call: success flag plus the state as left behind,
also on failure (partial writes persist, as with `&mut GlobalState`). -/
abbrev ExecOut := Bool × GlobalState

/-- Failure (`bail!`) leaving the current state behind. -/
def eErr (s : GlobalState) : ExecOut := (false, s)

/-- Success. -/
def eOk (s : GlobalState) : ExecOut := (true, s)

/-- Custom-asset balance lookup (`custom_balances.get`, defaulting to 0). -/
def getCustom (a : AccountState) (t : String) : Nat :=
  (a.custom_balances.lookup t).getD 0

/-- `custom_balances.entry(t).or_insert(0)` — materialise a zero entry. -/
def touchCustom (a : AccountState) (t : String) : AccountState :=
  if (a.custom_balances.lookup t).isSome then a
  else { a with custom_balances := a.custom_balances ++ [(t, 0)] }

/-- Write a custom-asset balance. -/
def setCustom (a : AccountState) (t : String) (v : Nat) : AccountState :=
  { a with custom_balances := insertAssoc a.custom_balances t v }

/-- The `MintSenior` arm of `execute_si` (also entered by the
`MintWithCreditScore` fallback, which re-dispatches a `MintSenior`
instruction with an empty proof). -/
def exec_mint_senior (env : CryptoEnv) (amount collateral_amount : Nat)
    (proof : Bytes) (sender : Addr) (s : GlobalState) : ExecOut :=
  if amount = 0 ∨ collateral_amount = 0 then eErr s
  else if proof = [] then eErr s
  else if s.circuit_breaker_active then eErr s
  else if env.verifyZkPor proof collateral_amount = false then eErr s
  else
    match checkedDiv amount 20 with
    | none => eErr s
    | some fee =>
      match checkedAdd s.insurance_fund_balance fee with
      | none => eErr s
      | some ins =>
        let s := { s with insurance_fund_balance := ins }
        match checkedAdd s.stabilization_pool_balance collateral_amount with
        | none => eErr s
        | some pool =>
          let s := { s with stabilization_pool_balance := pool }
          match checkedSub amount fee with
          | none => eErr s
          | some net_amount =>
            let s := touchAcct s sender
            match checkedAdd (getAcct s sender).lusd_balance net_amount with
            | none => eErr s
            | some bal =>
              let s := updAcct s sender (fun a => { a with lusd_balance := bal })
              match checkedAdd s.total_lusd_supply net_amount with
              | none => eErr s
              | some sup =>
                let s := { s with total_lusd_supply := sup }
                match checkedAdd (getAcct s sender).epoch_tx_volume amount with
                | none => eErr s
                | some vol =>
                  let s := updAcct s sender
                    (fun a => { a with epoch_tx_volume := vol })
                  eOk (recalculate_ratios s)

/-- The pro-rata loop of `DistributeYield` over the snapshot of
LJUN-holding accounts. -/
def distributeJuniorShares (junior_share total_ljun : Nat)
    (snapshot : List (Addr × Nat)) (s : GlobalState) : GlobalState :=
  snapshot.foldl
    (fun s' p =>
      let share := (checkedDiv ((checkedMul junior_share p.2).getD 0)
        total_ljun).getD 0
      if share > 0 then
        updAcct s' p.1 (fun a => { a with ljun_balance := satAdd a.ljun_balance share })
      else s')
    s

/-- The `FairRedeemQueue` drain loop: pop `n` requests from the head,
saturating-subtracting supply and pool for each. -/
def processQueue : Nat → GlobalState → GlobalState
  | 0, s => s
  | n + 1, s =>
    match s.fair_redeem_queue with
    | [] => s
    | req :: rest =>
      processQueue n
        { s with
          fair_redeem_queue := rest
          total_lusd_supply := satSub s.total_lusd_supply req.amount
          stabilization_pool_balance :=
            satSub s.stabilization_pool_balance req.amount }

/-- The inner guardian scan of `RecoverSocial`: first registered guardian
that is not yet used and verifies the signature over the new device key. -/
def findGuardian (env : CryptoEnv) (msg : Bytes) (sig : Bytes)
    (used : List Addr) : List Addr → Option Addr
  | [] => none
  | g :: rest =>
    if used.contains g then findGuardian env msg sig used rest
    else if env.verifySig g msg sig then some g
    else findGuardian env msg sig used rest

/-- One iteration of the `RecoverSocial` signature loop: try to bind the
signature to an unused guardian; on success record it and bump the count. -/
def recoverStep (env : CryptoEnv) (msg : Bytes) (guardians : List Addr)
    (acc : List Addr × Nat) (sig : Bytes) : List Addr × Nat :=
  match findGuardian env msg sig acc.1 guardians with
  | some g => (acc.1 ++ [g], acc.2 + 1)
  | none => acc

/-- The signature loop of `RecoverSocial`: accumulates the used-guardian
set and the verified count over the supplied signatures. -/
def recoverFold (env : CryptoEnv) (msg : Bytes) (guardians : List Addr)
    (sigs : List Bytes) : List Addr × Nat :=
  sigs.foldl (recoverStep env msg guardians) ([], 0)

/-- `RegisterGreenValidator`'s scan: flag the first validator whose pubkey
is the sender; `none` when the sender is not a registered validator. -/
def flagGreenFirst (sender : Addr) (proof : Bytes) :
    List ValidatorState → Option (List ValidatorState)
  | [] => none
  | v :: rest =>
    if v.pubkey = sender then
      some ({ v with
        is_green := true
        energy_proof := some proof
        power := satMul v.stake 2 } :: rest)
    else (flagGreenFirst sender proof rest).map (v :: ·)

/-- `lumina_execution::execute_si` — the core dispatcher, one arm per
`StablecoinInstruction`, translated arm by arm from the source.  `height`
and `timestamp` are the frozen per-block context fields. -/
def execute_si (env : CryptoEnv) (height timestamp : Nat)
    (si : StablecoinInstruction) (sender : Addr) (s : GlobalState) : ExecOut :=
  match si with
  | .RegisterAsset ticker decimals =>
    if ticker.length = 0 ∨ ticker.length > 16 then eErr s
    else if decimals > 18 then eErr s
    else if (s.oracle_prices.lookup ticker).isSome then eOk s
    else eOk { s with oracle_prices := s.oracle_prices ++ [(ticker, 0)] }

  | .MintSenior amount collateral_amount proof =>
    exec_mint_senior env amount collateral_amount proof sender s

  | .RedeemSenior amount =>
    if amount = 0 then eErr s
    else
      let s := touchAcct s sender
      -- `bal` is the sender balance as observed at the `entry().or_default()`
      -- borrows; the queue push below does not touch the accounts map, so
      -- the later re-borrow reads the same value.
      let bal := (getAcct s sender).lusd_balance
      if bal < amount then eErr s
      else if s.circuit_breaker_active ∨ s.reserve_ratio < stressThreshold then
        let s := { s with fair_redeem_queue :=
          s.fair_redeem_queue ++ [⟨sender, amount, timestamp⟩] }
        match checkedSub bal amount with
        | none => eErr s
        | some b => eOk (updAcct s sender (fun a => { a with lusd_balance := b }))
      else
        match checkedSub bal amount with
        | none => eErr s
        | some b =>
          let s := updAcct s sender (fun a => { a with lusd_balance := b })
          match checkedSub s.total_lusd_supply amount with
          | none => eErr s
          | some sup =>
            let s := { s with
              total_lusd_supply := sup
              stabilization_pool_balance :=
                satSub s.stabilization_pool_balance amount }
            eOk (recalculate_ratios s)

  | .MintJunior amount collateral_amount =>
    if amount = 0 ∨ collateral_amount = 0 then eErr s
    else
      match checkedAdd s.stabilization_pool_balance collateral_amount with
      | none => eErr s
      | some pool =>
        let s := { s with stabilization_pool_balance := pool }
        let s := touchAcct s sender
        match checkedAdd (getAcct s sender).ljun_balance amount with
        | none => eErr s
        | some bal =>
          let s := updAcct s sender (fun a => { a with ljun_balance := bal })
          match checkedAdd s.total_ljun_supply amount with
          | none => eErr s
          | some sup =>
            eOk (recalculate_ratios { s with total_ljun_supply := sup })

  | .RedeemJunior amount =>
    if amount = 0 then eErr s
    else
      let s := touchAcct s sender
      if (getAcct s sender).ljun_balance < amount then eErr s
      else
        match checkedSub (getAcct s sender).ljun_balance amount with
        | none => eErr s
        | some b =>
          let s := updAcct s sender (fun a => { a with ljun_balance := b })
          match checkedSub s.total_ljun_supply amount with
          | none => eErr s
          | some sup =>
            eOk (recalculate_ratios { s with total_ljun_supply := sup })

  | .Burn amount asset =>
    if amount = 0 then eErr s
    else
      let s := touchAcct s sender
      match asset with
      | .LUSD =>
        if (getAcct s sender).lusd_balance < amount then eErr s
        else
          match checkedSub (getAcct s sender).lusd_balance amount with
          | none => eErr s
          | some b =>
            let s := updAcct s sender (fun a => { a with lusd_balance := b })
            let s := { s with
              total_lusd_supply := satSub s.total_lusd_supply amount }
            eOk (recalculate_ratios s)
      | .LJUN =>
        if (getAcct s sender).ljun_balance < amount then eErr s
        else
          match checkedSub (getAcct s sender).ljun_balance amount with
          | none => eErr s
          | some b =>
            let s := updAcct s sender (fun a => { a with ljun_balance := b })
            let s := { s with
              total_ljun_supply := satSub s.total_ljun_supply amount }
            eOk (recalculate_ratios s)
      | .Lumina =>
        if (getAcct s sender).lumina_balance < amount then eErr s
        else
          match checkedSub (getAcct s sender).lumina_balance amount with
          | none => eErr s
          | some b =>
            let s := updAcct s sender (fun a => { a with lumina_balance := b })
            eOk (recalculate_ratios s)
      | .Custom ticker =>
        let s := updAcct s sender (fun a => touchCustom a ticker)
        if getCustom (getAcct s sender) ticker < amount then eErr s
        else
          match checkedSub (getCustom (getAcct s sender) ticker) amount with
          | none => eErr s
          | some b =>
            let s := updAcct s sender (fun a => setCustom a ticker b)
            eOk (recalculate_ratios s)

  | .Transfer dest amount asset =>
    if amount = 0 then eErr s
    else
      match asset with
      | .LUSD =>
        let s := touchAcct s sender
        if (getAcct s sender).lusd_balance < amount then eErr s
        else
          match checkedSub (getAcct s sender).lusd_balance amount with
          | none => eErr s
          | some b =>
            let s := updAcct s sender (fun a => { a with lusd_balance := b })
            match checkedAdd (getAcct s sender).epoch_tx_volume amount with
            | none => eErr s
            | some vol =>
              let s := updAcct s sender (fun a => { a with epoch_tx_volume := vol })
              let s := touchAcct s dest
              match checkedAdd (getAcct s dest).lusd_balance amount with
              | none => eErr s
              | some rb =>
                eOk (updAcct s dest (fun a => { a with lusd_balance := rb }))
      | .LJUN =>
        let s := touchAcct s sender
        if (getAcct s sender).ljun_balance < amount then eErr s
        else
          match checkedSub (getAcct s sender).ljun_balance amount with
          | none => eErr s
          | some b =>
            let s := updAcct s sender (fun a => { a with ljun_balance := b })
            match checkedAdd (getAcct s sender).epoch_tx_volume amount with
            | none => eErr s
            | some vol =>
              let s := updAcct s sender (fun a => { a with epoch_tx_volume := vol })
              let s := touchAcct s dest
              match checkedAdd (getAcct s dest).ljun_balance amount with
              | none => eErr s
              | some rb =>
                eOk (updAcct s dest (fun a => { a with ljun_balance := rb }))
      | .Lumina =>
        let s := touchAcct s sender
        if (getAcct s sender).lumina_balance < amount then eErr s
        else
          match checkedSub (getAcct s sender).lumina_balance amount with
          | none => eErr s
          | some b =>
            let s := updAcct s sender (fun a => { a with lumina_balance := b })
            let s := touchAcct s dest
            match checkedAdd (getAcct s dest).lumina_balance amount with
            | none => eErr s
            | some rb =>
              eOk (updAcct s dest (fun a => { a with lumina_balance := rb }))
      | .Custom ticker =>
        let s := touchAcct s sender
        let s := updAcct s sender (fun a => touchCustom a ticker)
        if getCustom (getAcct s sender) ticker < amount then eErr s
        else
          match checkedSub (getCustom (getAcct s sender) ticker) amount with
          | none => eErr s
          | some b =>
            let s := updAcct s sender (fun a => setCustom a ticker b)
            let s := touchAcct s dest
            let s := updAcct s dest (fun a => touchCustom a ticker)
            match checkedAdd (getCustom (getAcct s dest) ticker) amount with
            | none => eErr s
            | some rb =>
              eOk (updAcct s dest (fun a => setCustom a ticker rb))

  | .RebalanceTranches =>
    if s.total_lusd_supply = 0 then eOk s
    else
      let total_supply := satAdd s.total_lusd_supply s.total_ljun_supply
      let s :=
        if total_supply > 0 then
          let junior_pct : ℚ := mkRat (s.total_ljun_supply : Int) total_supply
          if junior_pct > mkRat 40 100 then
            let excess :=
              satSub s.total_ljun_supply (satMul total_supply 40 / 100)
            { s with stabilization_pool_balance :=
                satAdd s.stabilization_pool_balance excess }
          else s
        else s
      let s := { s with last_rebalance_height := height }
      eOk (recalculate_ratios s)

  | .DistributeYield total_yield =>
    if total_yield = 0 then eOk s
    else
      let junior_share := satMul total_yield 80 / 100
      let pool_share := satMul total_yield 15 / 100
      let insurance_share := satSub (satSub total_yield junior_share) pool_share
      match checkedAdd s.stabilization_pool_balance pool_share with
      | none => eErr s
      | some pool =>
        let s := { s with stabilization_pool_balance := pool }
        match checkedAdd s.insurance_fund_balance insurance_share with
        | none => eErr s
        | some ins =>
          let s := { s with insurance_fund_balance := ins }
          if s.total_ljun_supply > 0 then
            let snapshot := (s.accounts.filter
              (fun p => p.2.ljun_balance > 0)).map
              (fun p => (p.1, p.2.ljun_balance))
            let s := distributeJuniorShares junior_share s.total_ljun_supply
              snapshot s
            let s := { s with
              total_ljun_supply := satAdd s.total_ljun_supply junior_share }
            eOk (recalculate_ratios s)
          else
            let s := { s with
              stabilization_pool_balance :=
                satAdd s.stabilization_pool_balance junior_share }
            eOk (recalculate_ratios s)

  | .TriggerStabilizer =>
    let s := recalculate_ratios s
    if s.reserve_ratio < 1 ∧ s.insurance_fund_balance > 0 then
      let deficit := satSub s.total_lusd_supply s.stabilization_pool_balance
      let topup := min deficit s.insurance_fund_balance
      let s := { s with
        stabilization_pool_balance :=
          satAdd s.stabilization_pool_balance topup
        insurance_fund_balance := satSub s.insurance_fund_balance topup }
      eOk (recalculate_ratios s)
    else eOk s

  | .RunCircuitBreaker active =>
    eOk { s with circuit_breaker_active := active }

  | .FairRedeemQueue batch_size =>
    if s.circuit_breaker_active then eErr s
    else
      let to_process := min batch_size s.fair_redeem_queue.length
      eOk (recalculate_ratios (processQueue to_process s))

  | .ConfidentialTransfer commitment proof =>
    if env.verifyConfidential commitment proof = false then eErr s
    else eOk (updAcct s sender (fun a => { a with commitment := some commitment }))

  | .ProveCompliance tx_hash proof =>
    if env.verifyCompliance tx_hash proof = false then eErr s else eOk s

  | .ZkTaxAttest period proof =>
    if env.verifyTax period proof = false then eErr s else eOk s

  | .MultiJurisdictionalCheck jurisdiction_id proof =>
    if env.verifyMultiJur jurisdiction_id proof = false then eErr s else eOk s

  | .UpdateOracle asset price _ _ =>
    eOk (recalculate_ratios
      { s with oracle_prices := insertAssoc s.oracle_prices asset price })

  | .SubmitZkPoR proof total_reserves ts =>
    if ts ≤ s.last_por_timestamp then eErr s
    else
      let proof_id := env.hashBytes proof
      if s.last_por_hash = some proof_id then eErr s
      else if env.verifyZkPor proof total_reserves = false then eErr s
      else
        let s := { s with
          stabilization_pool_balance := total_reserves
          last_por_timestamp := ts
          last_por_hash := some proof_id }
        eOk (recalculate_ratios s)

  | .InstantFiatBridge amount _ _ =>
    let s := touchAcct s sender
    if (getAcct s sender).lusd_balance < amount then eErr s
    else
      match checkedSub (getAcct s sender).lusd_balance amount with
      | none => eErr s
      | some b =>
        let s := updAcct s sender (fun a => { a with lusd_balance := b })
        match checkedSub s.total_lusd_supply amount with
        | none => eErr s
        | some sup =>
          let s := { s with
            total_lusd_supply := sup
            stabilization_pool_balance :=
              satSub s.stabilization_pool_balance amount }
          eOk (recalculate_ratios s)

  | .ZeroSlipBatchMatch orders =>
    if orders = [] then eErr s
    else if orders.length > 1000 then eErr s
    else if ¬ orders.Nodup then eErr s
    else
      let batch_id := env.hashOrders orders
      if s.executed_batch_matches.contains batch_id then eErr s
      else eOk { s with executed_batch_matches :=
        s.executed_batch_matches ++ [batch_id] }

  | .DynamicHedge ratio_bps =>
    if ratio_bps > 10000 then eErr s
    else
      let s :=
        if ratio_bps > 0 then
          let current := s.stabilization_pool_balance
          let target_balance := s.total_lusd_supply * ratio_bps / 10000
          if target_balance > current then
            let diff := satSub target_balance current
            let available := min s.insurance_fund_balance diff
            { s with
              stabilization_pool_balance :=
                satAdd s.stabilization_pool_balance available
              insurance_fund_balance :=
                satSub s.insurance_fund_balance available }
          else s
        else s
      eOk (recalculate_ratios s)

  | .GeoRebalance zone_id =>
    if zone_id = 0 then eErr s
    else if s.custodians = [] then eOk s
    else
      let rotation := zone_id % s.custodians.length
      eOk { s with custodians :=
        s.custodians.drop rotation ++ s.custodians.take rotation }

  | .VelocityIncentive multiplier_bps =>
    if multiplier_bps = 0 ∨ multiplier_bps > 5000 then eErr s
    else
      let reward_addition := satMul s.total_lusd_supply multiplier_bps / 1000000
      eOk { s with
        velocity_reward_pool := satAdd s.velocity_reward_pool reward_addition }

  | .StreamPayment dest amount_per_sec duration =>
    if amount_per_sec = 0 ∨ duration = 0 then eErr s
    else
      match checkedMul amount_per_sec duration with
      | none => eErr s
      | some total_stream =>
        let s := touchAcct s sender
        if (getAcct s sender).lusd_balance < total_stream then eErr s
        else
          let s := updAcct s sender (fun a =>
            { a with lusd_balance := satSub a.lusd_balance total_stream })
          let stream : StreamState :=
            { recipient := dest
              amount_per_sec := amount_per_sec
              start_timestamp := timestamp
              end_timestamp := satAdd timestamp duration
              withdrawn := 0 }
          eOk (updAcct s sender (fun a =>
            { a with active_streams := a.active_streams ++ [stream] }))

  | .RegisterValidator pubkey stake =>
    if stake = 0 then eErr s
    else
      let s := touchAcct s sender
      if (getAcct s sender).lumina_balance < stake then eErr s
      else
        let s := updAcct s sender (fun a =>
          { a with lumina_balance := satSub a.lumina_balance stake })
        eOk { s with validators := s.validators ++
          [{ pubkey := pubkey, stake := stake, power := stake,
             is_green := false, energy_proof := none }] }

  | .Vote _ _ =>
    if s.validators.any (fun v => v.pubkey == sender) then eOk s else eErr s

  | .CreatePasskeyAccount device_key guardians =>
    if device_key = [] ∨ device_key.all (fun b => b == 0) then eErr s
    else if guardians.length < 2 ∨ guardians.length > 10 then eErr s
    else
      eOk (updAcct s sender (fun a =>
        { a with
          passkey_device_key := some device_key
          guardians := guardians }))

  | .RecoverSocial new_device_key guardian_signatures =>
    let s := touchAcct s sender
    let gs := (getAcct s sender).guardians
    if gs = [] then eErr s
    else
      let threshold := gs.length / 2 + 1
      if guardian_signatures.length < threshold then eErr s
      else
        let verified_count :=
          (recoverFold env new_device_key gs guardian_signatures).2
        if verified_count < threshold then eErr s
        else
          eOk (updAcct s sender (fun a =>
            { a with passkey_device_key := some new_device_key }))

  | .ClaimVelocityReward epoch tx_volume =>
    let s := touchAcct s sender
    let acct := getAcct s sender
    if epoch ≤ acct.last_reward_epoch then eErr s
    else if tx_volume = 0 then eErr s
    else if acct.epoch_tx_volume < tx_volume then eErr s
    else
      let reward := min s.velocity_reward_pool (tx_volume / 1000)
      if reward > 0 ∧ s.velocity_reward_pool ≥ reward then
        let s := { s with
          velocity_reward_pool := satSub s.velocity_reward_pool reward }
        eOk (updAcct s sender (fun a =>
          { a with
            lumina_balance := satAdd a.lumina_balance reward
            last_reward_epoch := epoch
            epoch_tx_volume := 0 }))
      else eOk s

  | .RegisterCustodian stake mpc_pubkeys =>
    if stake = 0 then eErr s
    else if mpc_pubkeys = [] ∨ mpc_pubkeys.length > 7 then eErr s
    else
      let s := touchAcct s sender
      if (getAcct s sender).ljun_balance < stake then eErr s
      else
        let s := updAcct s sender (fun a =>
          { a with ljun_balance := satSub a.ljun_balance stake })
        eOk { s with custodians := s.custodians ++
          [{ pubkey := sender, stake := stake, mpc_pubkeys := mpc_pubkeys,
             registered_height := height }] }

  | .RotateReserves new_custodian_set =>
    if new_custodian_set = [] then eErr s
    else if satSub height s.last_reserve_rotation_height < 259200 then eErr s
    else if ¬ (new_custodian_set.all (fun pk =>
        s.custodians.any (fun c => c.pubkey == pk))) then eErr s
    else eOk { s with last_reserve_rotation_height := height }

  | .ClaimInsurance loss_proof claimed_amount =>
    if env.verifyInsuranceLoss loss_proof claimed_amount = false then eErr s
    else if claimed_amount > s.insurance_fund_balance then eErr s
    else
      let s := { s with
        insurance_fund_balance :=
          satSub s.insurance_fund_balance claimed_amount }
      let s := touchAcct s sender
      match checkedAdd (getAcct s sender).lusd_balance claimed_amount with
      | none => eErr s
      | some bal =>
        let s := updAcct s sender (fun a => { a with lusd_balance := bal })
        match checkedAdd s.total_lusd_supply claimed_amount with
        | none => eErr s
        | some sup =>
          eOk (recalculate_ratios { s with total_lusd_supply := sup })

  | .SwitchToPQSignature new_pq_pubkey =>
    if new_pq_pubkey = [] then eErr s
    else eOk (updAcct s sender (fun a =>
      { a with pq_pubkey := some new_pq_pubkey }))

  | .RegisterGreenValidator energy_proof =>
    if env.verifyGreenEnergy energy_proof = false then eErr s
    else
      match flagGreenFirst sender energy_proof s.validators with
      | none => eErr s
      | some vs => eOk { s with validators := vs }

  | .UploadComplianceCircuit circuit_id verifier_key =>
    if verifier_key = [] then eErr s
    else eOk { s with
      compliance_circuits :=
        insertAssocNat s.compliance_circuits circuit_id verifier_key }

  | .FlashMint amount _ collateral_amount _ =>
    if amount = 0 then eErr s
    else if collateral_amount = 0 then eErr s
    else
      let min_collateral := satMul amount 110 / 100
      if collateral_amount < min_collateral then eErr s
      else
        match checkedAdd s.stabilization_pool_balance collateral_amount with
        | none => eErr s
        | some pool =>
          let s := { s with stabilization_pool_balance := pool }
          let s := touchAcct s sender
          match checkedAdd (getAcct s sender).pending_flash_mint amount with
          | none => eErr s
          | some pfm =>
            let s := updAcct s sender (fun a =>
              { a with pending_flash_mint := pfm })
            match checkedAdd (getAcct s sender).pending_flash_collateral
                collateral_amount with
            | none => eErr s
            | some pfc =>
              let s := updAcct s sender (fun a =>
                { a with pending_flash_collateral := pfc })
              match checkedAdd (getAcct s sender).lusd_balance amount with
              | none => eErr s
              | some bal =>
                let s := updAcct s sender (fun a =>
                  { a with lusd_balance := bal })
                match checkedAdd s.total_lusd_supply amount with
                | none => eErr s
                | some sup =>
                  let s := { s with total_lusd_supply := sup }
                  match checkedAdd s.pending_flash_mints amount with
                  | none => eErr s
                  | some gpfm =>
                    eOk { s with pending_flash_mints := gpfm }

  | .FlashBurn amount =>
    if amount = 0 then eErr s
    else
      let s := touchAcct s sender
      let acct := getAcct s sender
      if acct.pending_flash_mint = 0 then eErr s
      else if amount ≠ acct.pending_flash_mint then eErr s
      else if acct.lusd_balance < amount then eErr s
      else
        match checkedSub acct.lusd_balance amount with
        | none => eErr s
        | some bal =>
          let s := updAcct s sender (fun a => { a with lusd_balance := bal })
          match checkedSub s.total_lusd_supply amount with
          | none => eErr s
          | some sup =>
            let s := { s with
              total_lusd_supply := sup
              pending_flash_mints := satSub s.pending_flash_mints amount }
            let collateral_to_release :=
              (getAcct s sender).pending_flash_collateral
            let s := { s with
              stabilization_pool_balance :=
                satSub s.stabilization_pool_balance collateral_to_release }
            eOk (updAcct s sender (fun a =>
              { a with
                pending_flash_mint := 0
                pending_flash_collateral := 0 }))

  | .InstantRedeem amount _ =>
    if amount = 0 then eErr s
    else
      let s := touchAcct s sender
      let bal := (getAcct s sender).lusd_balance
      if bal < amount then eErr s
      else if s.circuit_breaker_active ∨ s.reserve_ratio < stressThreshold then
        let s := { s with fair_redeem_queue :=
          s.fair_redeem_queue ++ [⟨sender, amount, timestamp⟩] }
        match checkedSub bal amount with
        | none => eErr s
        | some b => eOk (updAcct s sender (fun a => { a with lusd_balance := b }))
      else
        match checkedSub bal amount with
        | none => eErr s
        | some b =>
          let s := updAcct s sender (fun a => { a with lusd_balance := b })
          match checkedSub s.total_lusd_supply amount with
          | none => eErr s
          | some sup =>
            let s := { s with
              total_lusd_supply := sup
              stabilization_pool_balance :=
                satSub s.stabilization_pool_balance amount }
            eOk (recalculate_ratios s)

  | .MintWithCreditScore amount collateral_amount credit_score_proof
      min_score_threshold oracle =>
    if amount = 0 then eErr s
    else
      let oracle_allowed := s.trusted_credit_oracles.contains oracle
      let proof_ok := env.verifyCredit credit_score_proof
      let proof_id := env.hashBytes credit_score_proof
      let is_replay := s.used_credit_proofs.contains proof_id
      if oracle_allowed = false ∨ proof_ok = false ∨ is_replay = true then
        exec_mint_senior env amount collateral_amount [] sender s
      else
        let score := 300 + env.rawScore credit_score_proof % 551
        if score < min_score_threshold then
          exec_mint_senior env amount collateral_amount [] sender s
        else
          let required_bps : Nat :=
            if score ≥ 800 then 10200
            else if score ≥ 750 then 10500
            else 11000
          let required_collateral := satMul amount required_bps / 10000
          if collateral_amount < required_collateral then eErr s
          else
            let s := { s with used_credit_proofs :=
              s.used_credit_proofs ++ [proof_id] }
            match checkedAdd s.stabilization_pool_balance collateral_amount with
            | none => eErr s
            | some pool =>
              let s := { s with stabilization_pool_balance := pool }
              let s := touchAcct s sender
              match checkedAdd (getAcct s sender).lusd_balance amount with
              | none => eErr s
              | some bal =>
                let s := updAcct s sender (fun a =>
                  { a with lusd_balance := bal, credit_score := score })
                match checkedAdd s.total_lusd_supply amount with
                | none => eErr s
                | some sup =>
                  eOk (recalculate_ratios { s with total_lusd_supply := sup })

  | .WrapToYieldToken amount maturity_blocks =>
    if amount = 0 ∨ maturity_blocks = 0 then eErr s
    else
      let s := touchAcct s sender
      if (getAcct s sender).lusd_balance < amount then eErr s
      else
        match checkedSub (getAcct s sender).lusd_balance amount with
        | none => eErr s
        | some b =>
          let s := updAcct s sender (fun a => { a with lusd_balance := b })
          let token_id := s.next_yield_token_id
          match checkedAdd s.next_yield_token_id 1 with
          | none => eErr s
          | some nid =>
            let s := { s with next_yield_token_id := nid }
            let position : YieldPosition :=
              { token_id := token_id
                principal := amount
                maturity_height := satAdd height maturity_blocks
                issued_height := height }
            eOk (updAcct s sender (fun a =>
              { a with yield_positions := a.yield_positions ++ [position] }))

  | .UnwrapYieldToken token_id =>
    let s := touchAcct s sender
    match (getAcct s sender).yield_positions.find?
        (fun p => p.token_id == token_id) with
    | none => eErr s
    | some position =>
      if height < position.maturity_height then eErr s
      else
        let blocks_held := satSub height position.issued_height
        let yield_earned :=
          satMul (satMul position.principal 5) blocks_held /
            satMul 100 3153600
        let insurance_cut := satMul yield_earned 10 / 100
        let user_yield := satSub yield_earned insurance_cut
        let total_return := satAdd position.principal user_yield
        match checkedAdd (getAcct s sender).lusd_balance total_return with
        | none => eErr s
        | some bal =>
          let s := updAcct s sender (fun a =>
            { a with
              lusd_balance := bal
              yield_positions :=
                a.yield_positions.eraseP (fun p => p.token_id == token_id) })
          match checkedAdd s.insurance_fund_balance insurance_cut with
          | none => eErr s
          | some ins =>
            let s := { s with insurance_fund_balance := ins }
            match checkedAdd s.total_lusd_supply yield_earned with
            | none => eErr s
            | some sup =>
              eOk (recalculate_ratios { s with total_lusd_supply := sup })

  | .ListRWA asset_description attested_value attestation_proof maturity_date
      collateral_eligibility =>
    if asset_description = "" then eErr s
    else if attested_value = 0 then eErr s
    else if env.verifyRwa attestation_proof attested_value = false then eErr s
    else
      let rwa_id := s.next_rwa_id
      match checkedAdd s.next_rwa_id 1 with
      | none => eErr s
      | some nid =>
        let listing : RWAListing :=
          { owner := sender
            asset_description := asset_description
            attestation_proof := attestation_proof
            attested_value := attested_value
            maturity_date := maturity_date
            collateral_eligibility := collateral_eligibility
            is_active := true
            pledged_amount := 0 }
        eOk { s with
          next_rwa_id := nid
          rwa_listings := insertAssocNat s.rwa_listings rwa_id listing }

  | .UseRWAAsCollateral rwa_id amount_to_pledge =>
    if amount_to_pledge = 0 then eErr s
    else
      match s.rwa_listings.lookup rwa_id with
      | none => eErr s
      | some listing =>
        if listing.is_active = false then eErr s
        else if listing.collateral_eligibility = false then eErr s
        else
          let remaining_capacity :=
            satSub listing.attested_value listing.pledged_amount
          if amount_to_pledge > remaining_capacity then eErr s
          else
            match checkedAdd listing.pledged_amount amount_to_pledge with
            | none => eErr s
            | some np =>
              let newListing := { listing with pledged_amount := np }
              let s := { s with
                rwa_listings := insertAssocNat s.rwa_listings rwa_id newListing }
              let s := touchAcct s sender
              match checkedAdd (getAcct s sender).lusd_balance
                  amount_to_pledge with
              | none => eErr s
              | some bal =>
                let s := updAcct s sender (fun a =>
                  { a with lusd_balance := bal })
                match checkedAdd s.total_lusd_supply amount_to_pledge with
                | none => eErr s
                | some sup =>
                  let s := { s with total_lusd_supply := sup }
                  match checkedAdd s.stabilization_pool_balance
                      amount_to_pledge with
                  | none => eErr s
                  | some pool =>
                    eOk (recalculate_ratios
                      { s with stabilization_pool_balance := pool })

  | .ComputeHealthIndex =>
    eOk (compute_health_index s)

/-- `lumina_execution::execute_transaction` — signature check (PQ if the
account opted in), nonce replay protection, then dispatch. -/
def execute_transaction (env : CryptoEnv) (height timestamp : Nat)
    (tx : Transaction) (s : GlobalState) : ExecOut :=
  let s := touchAcct s tx.sender
  let sig_ok :=
    match (getAcct s tx.sender).pq_pubkey with
    | some pq => env.verifyPqTxSig pq tx
    | none => env.verifyTxSig tx.sender tx
  if sig_ok = false then eErr s
  else if tx.nonce ≠ (getAcct s tx.sender).nonce then eErr s
  else
    match checkedAdd (getAcct s tx.sender).nonce 1 with
    | none => eErr s
    | some n =>
      let s := updAcct s tx.sender (fun a => { a with nonce := n })
      execute_si env height timestamp tx.instruction tx.sender s

/-! ## Derived predicates used by the claims -/

/-- The value the spec prescribes for `reserve_ratio`:
`stabilization_pool_balance / total_lusd_supply`, and `1.0` when the supply
is zero. -/
def ratioSpec (s : GlobalState) : ℚ :=
  if s.total_lusd_supply = 0 then 1
  else (s.stabilization_pool_balance : ℚ) / (s.total_lusd_supply : ℚ)

/-- The reserve-ratio bookkeeping invariant. -/
def RatioInv (s : GlobalState) : Prop := s.reserve_ratio = ratioSpec s

/-- Sum of the per-account `pending_flash_mint` fields. -/
def sumPendingFlash (s : GlobalState) : Nat :=
  (s.accounts.map (fun p => p.2.pending_flash_mint)).sum

/-! ## Fork choice (`lumina-consensus`) -/

/-- Rust's `Ord` on `[u8; 32]` / byte slices, specialised to `>`:
lexicographic, elementwise from the front (with the longer slice greater on
an equal prefix, as for Rust slices; the importer only compares 32-byte
hashes). -/
def hashGtBytes : List Nat → List Nat → Bool
  | [], [] => false
  | [], _ :: _ => false
  | _ :: _, [] => true
  | a :: as, b :: bs =>
    if b < a then true
    else if a < b then false
    else hashGtBytes as bs

/-- The fork-choice comparison of `import_block_and_maybe_reorg`
(`lumina-consensus/src/lib.rs`): a candidate block `(hc, Hc)` replaces the
tip `(ht, Ht)` iff `hc > ht || (hc == ht && Hc > Ht)`. -/
def fork_choice_prefers (hc : Nat) (Hc : List Nat) (ht : Nat)
    (Ht : List Nat) : Bool :=
  decide (ht < hc) || (decide (hc = ht) && hashGtBytes Hc Ht)

/-- The spec's wording of the hash tiebreak, as a second definition for the
refinement claim: `Hc` is lexicographically greater than `Ht` as a 32-byte
value — at some index `Hc` holds the larger byte while all earlier indexes
agree. -/
def LexGtSpec (Hc Ht : List Nat) : Prop :=
  ∃ i, i < Hc.length ∧ (∀ j, j < i → Hc.getD j 0 = Ht.getD j 0) ∧
    Ht.getD i 0 < Hc.getD i 0

/-! ## Merkle transactions root (`lumina_types::block::Block`) -/

/-- One pass of the `transactions_root` while-loop: pair adjacent ids,
duplicating a trailing id without a right sibling. -/
def merklePairUp {α : Type} (hc : α → α → α) : List α → List α
  | [] => []
  | [x] => [hc x x]
  | x :: y :: rest => hc x y :: merklePairUp hc rest

/-- Length bound used as the termination measure of `merkleGo`. -/
theorem merklePairUp_length {α : Type} (hc : α → α → α) :
    ∀ (l : List α), 2 * (merklePairUp hc l).length ≤ l.length + 1
  | [] => by simp [merklePairUp]
  | [_] => by simp [merklePairUp]
  | _ :: _ :: rest => by
    simp only [merklePairUp, List.length_cons]
    have := merklePairUp_length hc rest
    omega

/-- The `while level.len() > 1` loop of `Block::transactions_root`. -/
def merkleGo {α : Type} (hc : α → α → α) (z : α) : List α → α
  | [] => z
  | [x] => x
  | x :: y :: rest => merkleGo hc z (merklePairUp hc (x :: y :: rest))
termination_by l => l.length
decreasing_by
  simp only [merklePairUp, List.length_cons]
  have := merklePairUp_length hc rest
  omega

/-- `Block::transactions_root`, over the list of transaction ids, with the
32-byte hash-of-concatenation abstracted as `hc` and the all-zero 32-byte
value as `z`: the empty list returns `z`, otherwise the levels are folded
up to a single root. -/
def transactions_root {α : Type} (hc : α → α → α) (z : α)
    (ids : List α) : α :=
  merkleGo hc z ids

/-- Spec-side helper: duplicate the last node of a level of odd length
("a node without a right sibling is paired with a duplicate of itself"). -/
def dupLastIfOdd {α : Type} (l : List α) : List α :=
  if l.length % 2 = 1 then
    match l.getLast? with
    | some x => l ++ [x]
    | none => l
  else l

/-- Spec-side helper: pair adjacent nodes of an (even-length) level. -/
def pairAdjacent {α : Type} (hc : α → α → α) : List α → List α
  | x :: y :: rest => hc x y :: pairAdjacent hc rest
  | _ => []

/-- Length bound used as the termination measure of `merkleRootSpec`. -/
theorem pairAdjacent_length {α : Type} (hc : α → α → α) :
    ∀ (l : List α), 2 * (pairAdjacent hc l).length ≤ l.length
  | [] => by simp [pairAdjacent]
  | [_] => by simp [pairAdjacent]
  | _ :: _ :: rest => by
    simp only [pairAdjacent, List.length_cons]
    have := pairAdjacent_length hc rest
    omega

/-- The claim's binary Merkle tree, written from the spec's words: the root
of the empty list is the zero value; a singleton level is the root; a
longer level is padded with a duplicate of its last node when odd and the
adjacent pairs are hashed into the next level. -/
def merkleRootSpec {α : Type} (hc : α → α → α) (z : α) : List α → α
  | [] => z
  | [x] => x
  | x :: y :: rest =>
    merkleRootSpec hc z (pairAdjacent hc (dupLastIfOdd (x :: y :: rest)))
termination_by l => l.length
decreasing_by
  have h1 := pairAdjacent_length hc (dupLastIfOdd (x :: y :: rest))
  have h2 : (dupLastIfOdd (x :: y :: rest)).length ≤
      (x :: y :: rest).length + 1 := by
    unfold dupLastIfOdd
    split
    · split
      · simp
      · simp
    · simp
  simp only [List.length_cons] at *
  omega

/-! ## Reachability for the circuit-breaker latch (C5) -/

/-- `ReachNoClear env s s'`: `s'` is reachable from `s` by successfully
executed instructions, none of which is `RunCircuitBreaker{active=false}`. -/
inductive ReachNoClear (env : CryptoEnv) : GlobalState → GlobalState → Prop
  | refl (s : GlobalState) : ReachNoClear env s s
  | step {s1 s2 s3 : GlobalState} (height tstamp : Nat)
      (si : StablecoinInstruction) (sender : Addr)
      (hne : si ≠ .RunCircuitBreaker false)
      (hok : execute_si env height tstamp si sender s1 = (true, s2))
      (htail : ReachNoClear env s2 s3) : ReachNoClear env s1 s3

/-! ## Facts about `recalculate_ratios` -/

@[simp] theorem eErr_def (s : GlobalState) : eErr s = (false, s) := rfl

@[simp] theorem eOk_def (s : GlobalState) : eOk s = (true, s) := rfl

theorem recalculate_ratios_ratio (s : GlobalState) :
    RatioInv (recalculate_ratios s) := by
  unfold RatioInv ratioSpec recalculate_ratios
  by_cases h : s.total_lusd_supply = 0
  · simp [h]
  · simp [h, Rat.mkRat_eq_div]
    split <;> simp [h, Rat.mkRat_eq_div]

theorem recalculate_ratios_supply (s : GlobalState) :
    (recalculate_ratios s).total_lusd_supply = s.total_lusd_supply := by
  unfold recalculate_ratios
  split <;> [rfl; (dsimp only []; split <;> rfl)]

theorem recalculate_ratios_pool (s : GlobalState) :
    (recalculate_ratios s).stabilization_pool_balance =
      s.stabilization_pool_balance := by
  unfold recalculate_ratios
  split <;> [rfl; (dsimp only []; split <;> rfl)]

theorem recalculate_ratios_breaker_mono (s : GlobalState)
    (h : s.circuit_breaker_active = true) :
    (recalculate_ratios s).circuit_breaker_active = true := by
  unfold recalculate_ratios
  split <;> [exact h; (dsimp only []; split <;> [rfl; exact h])]

theorem recalculate_ratios_trigger (s : GlobalState)
    (h : (recalculate_ratios s).reserve_ratio < breakerThreshold) :
    (recalculate_ratios s).circuit_breaker_active = true := by
  unfold recalculate_ratios at h ⊢
  split at h
  · exfalso
    simp only [] at h
    norm_num [breakerThreshold] at h
  · dsimp only [] at h ⊢
    split at h
    · split <;> simp_all
    · simp_all

/-! ## C4 — MintSenior fee routing on a fresh state -/

theorem default_acct_fields :
    (default : AccountState).nonce = 0 ∧
    (default : AccountState).lusd_balance = 0 ∧
    (default : AccountState).ljun_balance = 0 ∧
    (default : AccountState).lumina_balance = 0 ∧
    (default : AccountState).epoch_tx_volume = 0 ∧
    (default : AccountState).pending_flash_mint = 0 ∧
    (default : AccountState).pending_flash_collateral = 0 ∧
    (default : AccountState).guardians = [] ∧
    (default : AccountState).pq_pubkey = none := by
  exact ⟨rfl, rfl, rfl, rfl, rfl, rfl, rfl, rfl, rfl⟩

/-- C4: on a fresh (default) state, `MintSenior{amount=1000,
collateral_amount=1200, proof=nonempty valid proof}` for sender `S`
succeeds and yields `accounts[S].lusd = 950`, `total_lusd_supply = 950`,
`insurance_fund_balance = 50`, `stabilization_pool_balance = 1200`
(fee `amount/20` to the insurance fund, net credited to the sender and the
supply, collateral into the pool), and `epoch_tx_volume` grows by `1000`. -/
theorem claim_C4 (env : CryptoEnv) (proof : Bytes) (sender : Addr)
    (hp : proof ≠ []) (hv : env.verifyZkPor proof 1200 = true) :
    (execute_si env 1 0 (.MintSenior 1000 1200 proof) sender {}).1 = true ∧
    (getAcct (execute_si env 1 0 (.MintSenior 1000 1200 proof) sender {}).2
      sender).lusd_balance = 950 ∧
    (execute_si env 1 0 (.MintSenior 1000 1200 proof) sender {}).2.total_lusd_supply = 950 ∧
    (execute_si env 1 0 (.MintSenior 1000 1200 proof) sender {}).2.insurance_fund_balance = 50 ∧
    (execute_si env 1 0 (.MintSenior 1000 1200 proof) sender {}).2.stabilization_pool_balance = 1200 ∧
    (getAcct (execute_si env 1 0 (.MintSenior 1000 1200 proof) sender {}).2
      sender).epoch_tx_volume = 1000 := by
  set_option maxRecDepth 100000 in
  norm_num [execute_si, exec_mint_senior, hv, hp, checkedDiv, checkedAdd,
    checkedSub, U64LIMIT, touchAcct, hasAcct, updAcct, getAcct, eOk, eErr,
    recalculate_ratios, breakerThreshold, List.lookup,
    default_acct_fields.1, default_acct_fields.2.1, default_acct_fields.2.2.1,
    default_acct_fields.2.2.2.1, default_acct_fields.2.2.2.2.1,
    default_acct_fields.2.2.2.2.2.1]

/-- Closed witness for C4 at a concrete environment, proof and sender. -/
theorem claim_C4_witness :
    ([1] : Bytes) ≠ [] ∧ allOkEnv.verifyZkPor [1] 1200 = true ∧
    (execute_si allOkEnv 1 0 (.MintSenior 1000 1200 [1]) 7 {}).2.total_lusd_supply = 950 := by
  refine ⟨by decide, rfl, ?_⟩
  exact (claim_C4 allOkEnv [1] 7 (by decide) rfl).2.2.1

/-! ## C1 — the pipeline is not atomic on error

`execute_transaction` materialises the sender's account
(`entry(tx.sender).or_default()`) before the signature and nonce checks and
never rolls anything back, so a failing transaction can leave the state
changed.  Concrete failing input: a fresh state and a transaction from an
unknown sender with a wrong nonce — the call errors, yet a new default
account for the sender persists. -/

/-- C1 (failing-input evaluation): on a fresh state, a transaction with
nonce 5 from unknown sender 7 (signature accepted) fails with an error but
leaves the state changed — the sender's default account was created. -/
theorem claim_C1 :
    (execute_transaction allOkEnv 1 0
      { sender := 7, nonce := 5, instruction := .RunCircuitBreaker false,
        signature := [] } {}).1 = false ∧
    (execute_transaction allOkEnv 1 0
      { sender := 7, nonce := 5, instruction := .RunCircuitBreaker false,
        signature := [] } {}).2.accounts = [(7, default)] ∧
    (execute_transaction allOkEnv 1 0
      { sender := 7, nonce := 5, instruction := .RunCircuitBreaker false,
        signature := [] } {}).2 ≠ ({} : GlobalState) := by
  refine ⟨rfl, rfl, ?_⟩
  intro h
  have : (({} : GlobalState)).accounts = [(7, (default : AccountState))] := by
    rw [← h]; rfl
  simp at this

/-! ## C3 — flash-mint aggregate vs per-account fields at `end_block`

`end_block` clears only the global `pending_flash_mints`; the per-account
`pending_flash_mint` fields survive, so after an unpaired `FlashMint` the
"sum" invariant and the "both zero after end_block" statement fail. -/

/-- C3 (failing-input evaluation): `FlashMint{amount=100, collateral=110}`
on a fresh state succeeds; after `end_block` the global aggregate is 0 but
the sender's `pending_flash_mint` is still 100, so the global field no
longer equals the per-account sum and the per-account field is non-zero. -/
theorem claim_C3 :
    (execute_si allOkEnv 1 0 (.FlashMint 100 .LUSD 110 0) 7 {}).1 = true ∧
    (end_block (execute_si allOkEnv 1 0
      (.FlashMint 100 .LUSD 110 0) 7 {}).2).pending_flash_mints = 0 ∧
    (getAcct (end_block (execute_si allOkEnv 1 0
      (.FlashMint 100 .LUSD 110 0) 7 {}).2) 7).pending_flash_mint = 100 ∧
    sumPendingFlash (end_block (execute_si allOkEnv 1 0
      (.FlashMint 100 .LUSD 110 0) 7 {}).2) = 100 := by
  refine ⟨rfl, rfl, rfl, rfl⟩

/-! ## Frame lemmas: account-map edits leave the global fields alone -/

@[simp] theorem touchAcct_supply (s : GlobalState) (a : Addr) :
    (touchAcct s a).total_lusd_supply = s.total_lusd_supply := by
  unfold touchAcct; split <;> rfl

@[simp] theorem touchAcct_ljun (s : GlobalState) (a : Addr) :
    (touchAcct s a).total_ljun_supply = s.total_ljun_supply := by
  unfold touchAcct; split <;> rfl

@[simp] theorem touchAcct_pool (s : GlobalState) (a : Addr) :
    (touchAcct s a).stabilization_pool_balance = s.stabilization_pool_balance := by
  unfold touchAcct; split <;> rfl

@[simp] theorem touchAcct_ratio (s : GlobalState) (a : Addr) :
    (touchAcct s a).reserve_ratio = s.reserve_ratio := by
  unfold touchAcct; split <;> rfl

@[simp] theorem touchAcct_breaker (s : GlobalState) (a : Addr) :
    (touchAcct s a).circuit_breaker_active = s.circuit_breaker_active := by
  unfold touchAcct; split <;> rfl

@[simp] theorem touchAcct_insurance (s : GlobalState) (a : Addr) :
    (touchAcct s a).insurance_fund_balance = s.insurance_fund_balance := by
  unfold touchAcct; split <;> rfl

@[simp] theorem touchAcct_queue (s : GlobalState) (a : Addr) :
    (touchAcct s a).fair_redeem_queue = s.fair_redeem_queue := by
  unfold touchAcct; split <;> rfl

@[simp] theorem touchAcct_pending (s : GlobalState) (a : Addr) :
    (touchAcct s a).pending_flash_mints = s.pending_flash_mints := by
  unfold touchAcct; split <;> rfl

@[simp] theorem updAcct_supply (s : GlobalState) (a : Addr)
    (f : AccountState → AccountState) :
    (updAcct s a f).total_lusd_supply = s.total_lusd_supply := by
  unfold updAcct; split <;> rfl

@[simp] theorem updAcct_ljun (s : GlobalState) (a : Addr)
    (f : AccountState → AccountState) :
    (updAcct s a f).total_ljun_supply = s.total_ljun_supply := by
  unfold updAcct; split <;> rfl

@[simp] theorem updAcct_pool (s : GlobalState) (a : Addr)
    (f : AccountState → AccountState) :
    (updAcct s a f).stabilization_pool_balance = s.stabilization_pool_balance := by
  unfold updAcct; split <;> rfl

@[simp] theorem updAcct_ratio (s : GlobalState) (a : Addr)
    (f : AccountState → AccountState) :
    (updAcct s a f).reserve_ratio = s.reserve_ratio := by
  unfold updAcct; split <;> rfl

@[simp] theorem updAcct_breaker (s : GlobalState) (a : Addr)
    (f : AccountState → AccountState) :
    (updAcct s a f).circuit_breaker_active = s.circuit_breaker_active := by
  unfold updAcct; split <;> rfl

@[simp] theorem updAcct_insurance (s : GlobalState) (a : Addr)
    (f : AccountState → AccountState) :
    (updAcct s a f).insurance_fund_balance = s.insurance_fund_balance := by
  unfold updAcct; split <;> rfl

@[simp] theorem updAcct_queue (s : GlobalState) (a : Addr)
    (f : AccountState → AccountState) :
    (updAcct s a f).fair_redeem_queue = s.fair_redeem_queue := by
  unfold updAcct; split <;> rfl

@[simp] theorem updAcct_pending (s : GlobalState) (a : Addr)
    (f : AccountState → AccountState) :
    (updAcct s a f).pending_flash_mints = s.pending_flash_mints := by
  unfold updAcct; split <;> rfl

@[simp] theorem compute_health_supply (s : GlobalState) :
    (compute_health_index s).total_lusd_supply = s.total_lusd_supply := rfl

@[simp] theorem compute_health_pool (s : GlobalState) :
    (compute_health_index s).stabilization_pool_balance =
      s.stabilization_pool_balance := rfl

@[simp] theorem compute_health_ratio (s : GlobalState) :
    (compute_health_index s).reserve_ratio = s.reserve_ratio := rfl

@[simp] theorem compute_health_breaker (s : GlobalState) :
    (compute_health_index s).circuit_breaker_active =
      s.circuit_breaker_active := rfl

@[simp] theorem compute_health_accounts (s : GlobalState) :
    (compute_health_index s).accounts = s.accounts := rfl

@[simp] theorem compute_health_pending (s : GlobalState) :
    (compute_health_index s).pending_flash_mints = s.pending_flash_mints := rfl

theorem recalculate_ratios_accounts (s : GlobalState) :
    (recalculate_ratios s).accounts = s.accounts := by
  unfold recalculate_ratios
  split <;> [rfl; (dsimp only []; split <;> rfl)]

/-! ## Lookup lemmas for the account association list -/

theorem lookup_map_upd (l : List (Addr × AccountState)) (a : Addr)
    (f : AccountState → AccountState) :
    (l.map (fun p => if p.1 == a then (p.1, f p.2) else p)).lookup a =
      (l.lookup a).map f := by
  induction l with
  | nil => rfl
  | cons p t ih =>
    obtain ⟨k, v⟩ := p
    simp only [List.map_cons]
    split
    · next hkt =>
      have hk : k = a := by simpa using hkt
      subst hk
      simp [List.lookup_cons, ih]
    · next hkf =>
      have hk : ¬ k = a := by simpa using hkf
      have hb : (a == k) = false := by
        simp only [beq_eq_false_iff_ne, ne_eq]
        exact fun h => hk h.symm
      rw [List.lookup_cons, List.lookup_cons]
      simp only [hb]
      simpa using ih

theorem lookup_append_single (l : List (Addr × AccountState)) (a : Addr)
    (x : AccountState) (h : l.lookup a = none) :
    (l ++ [(a, x)]).lookup a = some x := by
  induction l with
  | nil => simp [List.lookup_cons]
  | cons p t ih =>
    obtain ⟨k, v⟩ := p
    rw [List.lookup_cons] at h
    rw [List.cons_append, List.lookup_cons]
    rcases hb : (a == k) with _ | _
    · simp only [hb] at h ⊢
      exact ih h
    · simp only [hb] at h
      exact Option.noConfusion h

theorem lookup_none_of_not_hasAcct {s : GlobalState} {a : Addr}
    (h : ¬ hasAcct s a = true) : s.accounts.lookup a = none := by
  rcases hx : s.accounts.lookup a with _ | v
  · rfl
  · exact absurd (by simp [hasAcct, hx]) h

theorem getAcct_touchAcct_self (s : GlobalState) (a : Addr) :
    getAcct (touchAcct s a) a = getAcct s a := by
  unfold touchAcct
  split
  · rfl
  · next h =>
    have heq := lookup_none_of_not_hasAcct h
    show ((s.accounts ++ [(a, default)]).lookup a).getD default =
      (s.accounts.lookup a).getD default
    rw [lookup_append_single _ _ _ heq, heq]
    rfl

theorem lookup_some_of_hasAcct {s : GlobalState} {a : Addr}
    (h : hasAcct s a = true) : ∃ v, s.accounts.lookup a = some v := by
  rcases hx : s.accounts.lookup a with _ | v
  · exact absurd h (by simp [hasAcct, hx])
  · exact ⟨v, rfl⟩

theorem lookup_touchAcct_self (s : GlobalState) (a : Addr) :
    (touchAcct s a).accounts.lookup a = some (getAcct s a) := by
  unfold touchAcct
  split
  · next h =>
    obtain ⟨v, heq⟩ := lookup_some_of_hasAcct h
    simp [getAcct, heq]
  · next h =>
    have heq := lookup_none_of_not_hasAcct h
    show (s.accounts ++ [(a, default)]).lookup a = some (getAcct s a)
    rw [lookup_append_single _ _ _ heq]
    simp [getAcct, heq]

theorem lookup_updAcct_self (s : GlobalState) (a : Addr)
    (f : AccountState → AccountState) :
    (updAcct s a f).accounts.lookup a = some (f (getAcct s a)) := by
  unfold updAcct
  split
  · next h =>
    obtain ⟨v, heq⟩ := lookup_some_of_hasAcct h
    show (s.accounts.map
      (fun p => if p.1 == a then (p.1, f p.2) else p)).lookup a = _
    rw [lookup_map_upd, heq]
    simp [getAcct, heq]
  · next h =>
    have heq := lookup_none_of_not_hasAcct h
    show (s.accounts ++ [(a, f default)]).lookup a = _
    rw [lookup_append_single _ _ _ heq]
    simp [getAcct, heq]

theorem getAcct_updAcct_self (s : GlobalState) (a : Addr)
    (f : AccountState → AccountState) :
    getAcct (updAcct s a f) a = f (getAcct s a) := by
  unfold updAcct
  split
  · next h =>
    obtain ⟨v, heq⟩ : ∃ v, s.accounts.lookup a = some v := by
      rcases hx : s.accounts.lookup a with _ | v
      · exact absurd h (by simp [hasAcct, hx])
      · exact ⟨v, rfl⟩
    show ((s.accounts.map
        (fun p => if p.1 == a then (p.1, f p.2) else p)).lookup a).getD default =
      f ((s.accounts.lookup a).getD default)
    rw [lookup_map_upd, heq]
    rfl
  · next h =>
    have heq := lookup_none_of_not_hasAcct h
    show ((s.accounts ++ [(a, f default)]).lookup a).getD default =
      f ((s.accounts.lookup a).getD default)
    rw [lookup_append_single _ _ _ heq, heq]
    rfl

theorem recalculate_ratios_pending (s : GlobalState) :
    (recalculate_ratios s).pending_flash_mints = s.pending_flash_mints := by
  unfold recalculate_ratios
  split <;> [rfl; (dsimp only []; split <;> rfl)]

/-- `RatioInv` only looks at `reserve_ratio`, the pool and the supply. -/
theorem RatioInv_of_fields {s s' : GlobalState}
    (h1 : s'.reserve_ratio = s.reserve_ratio)
    (h2 : s'.stabilization_pool_balance = s.stabilization_pool_balance)
    (h3 : s'.total_lusd_supply = s.total_lusd_supply)
    (hpre : RatioInv s) : RatioInv s' := by
  unfold RatioInv ratioSpec at hpre ⊢
  rw [h1, h2, h3]
  exact hpre

/-- A successful `MintSenior` ends in `recalculate_ratios`. -/
theorem exec_mint_senior_ok (env : CryptoEnv) (a c : Nat) (p : Bytes)
    (sender : Addr) (s s' : GlobalState)
    (hok : exec_mint_senior env a c p sender s = (true, s')) :
    ∃ x, s' = recalculate_ratios x := by
  unfold exec_mint_senior at hok
  repeat'
    first
      | (split at hok)
      | (simp only [] at hok)
      | (exact Bool.noConfusion (congrArg Prod.fst hok))
  all_goals simp only [eOk_def, Prod.mk.injEq, true_and] at hok
  all_goals exact ⟨_, hok.symm⟩

/-! ## C2 — reserve-ratio invariant: FlashMint/FlashBurn do not recompute -/

/-- C2 counterexample: from the default state (where
`reserve_ratio = ratioSpec` holds, supply 0 vs ratio — the default state has
ratio `0` and supply `0`; we first establish the invariant with a
`RunCircuitBreaker`-free `MintSenior`-free base: here we exhibit directly
that a successful `FlashMint` yields a state whose `reserve_ratio` differs
from `stabilization_pool_balance / total_lusd_supply`: after
`FlashMint{100, 110}` the pool is 110 and supply 100, but the stored ratio
is still the stale `0`.  This refutes the claim for the FlashMint case. -/
theorem claim_C2_cex :
    (execute_si allOkEnv 1 0 (.FlashMint 100 .LUSD 110 0) 7 {}).1 = true ∧
    (execute_si allOkEnv 1 0 (.FlashMint 100 .LUSD 110 0) 7
      {}).2.total_lusd_supply = 100 ∧
    (execute_si allOkEnv 1 0 (.FlashMint 100 .LUSD 110 0) 7
      {}).2.stabilization_pool_balance = 110 ∧
    (execute_si allOkEnv 1 0 (.FlashMint 100 .LUSD 110 0) 7
      {}).2.reserve_ratio ≠
      ratioSpec (execute_si allOkEnv 1 0 (.FlashMint 100 .LUSD 110 0) 7 {}).2 := by
  refine ⟨rfl, rfl, rfl, ?_⟩
  intro h
  rw [show (execute_si allOkEnv 1 0 (.FlashMint 100 .LUSD 110 0) 7
    {}).2.reserve_ratio = (0 : ℚ) from rfl] at h
  rw [show ratioSpec (execute_si allOkEnv 1 0 (.FlashMint 100 .LUSD 110 0) 7
    {}).2 = (110 : ℚ) / 100 from rfl] at h
  norm_num at h

set_option maxHeartbeats 1600000 in
/-- C2 (amended): after every successfully executed `MintSenior`,
`RedeemSenior`, `Burn`, or `Transfer` instruction,
`reserve_ratio = stabilization_pool_balance / total_lusd_supply`
(`1.0` when the supply is 0), provided the equality held before the
instruction (the queued `RedeemSenior` path and `Transfer` do not
recompute the ratio but also do not move pool or supply; the other paths
recompute it unconditionally).  `FlashMint` and `FlashBurn` are excluded:
they move pool and supply without recomputing the stored ratio
(see the counterexample). -/
theorem claim_C2_amended (env : CryptoEnv) (height timestamp : Nat)
    (si : StablecoinInstruction) (sender : Addr) (s s' : GlobalState)
    (hshape :
      (∃ a c p, si = .MintSenior a c p) ∨
      (∃ a, si = .RedeemSenior a) ∨
      (∃ a t, si = .Burn a t) ∨
      (∃ d a t, si = .Transfer d a t))
    (hpre : RatioInv s)
    (hok : execute_si env height timestamp si sender s = (true, s')) :
    RatioInv s' := by
  rcases hshape with ⟨a, c, p, rfl⟩ | ⟨a, rfl⟩ | ⟨a, t, rfl⟩ | ⟨d, a, t, rfl⟩
  · obtain ⟨x, hx⟩ :=
      exec_mint_senior_ok env a c p sender s s' (by exact hok)
    rw [hx]; exact recalculate_ratios_ratio x
  · simp only [execute_si] at hok
    repeat'
      first
        | (split at hok)
        | (simp only [] at hok)
        | (exact Bool.noConfusion (congrArg Prod.fst hok))
    all_goals simp only [eOk_def, Prod.mk.injEq, true_and] at hok
    all_goals
      first
        | (rw [← hok]; exact recalculate_ratios_ratio _)
        | (rw [← hok];
           exact RatioInv_of_fields (by simp) (by simp) (by simp) hpre)
  · simp only [execute_si] at hok
    repeat'
      first
        | (split at hok)
        | (simp only [] at hok)
        | (exact Bool.noConfusion (congrArg Prod.fst hok))
    all_goals simp only [eOk_def, Prod.mk.injEq, true_and] at hok
    all_goals (rw [← hok]; exact recalculate_ratios_ratio _)
  · simp only [execute_si] at hok
    repeat'
      first
        | (split at hok)
        | (simp only [] at hok)
        | (exact Bool.noConfusion (congrArg Prod.fst hok))
    all_goals simp only [eOk_def, Prod.mk.injEq, true_and] at hok
    all_goals
      (rw [← hok];
       exact RatioInv_of_fields (by simp) (by simp) (by simp) hpre)

/-- Closed witness for the amended C2: a concrete `Transfer` of LUSD from a
state satisfying the invariant, with the invariant checked on the output. -/
theorem claim_C2_amended_witness :
    RatioInv (execute_si allOkEnv 1 0 (.Transfer 8 5 .LUSD) 7
      { accounts := [(7, { lusd_balance := 100 })]
        total_lusd_supply := 100
        stabilization_pool_balance := 100
        reserve_ratio := 1 }).2 := by
  exact claim_C2_amended allOkEnv 1 0 (.Transfer 8 5 .LUSD) 7
    { accounts := [(7, { lusd_balance := 100 })]
      total_lusd_supply := 100
      stabilization_pool_balance := 100
      reserve_ratio := 1 } _
    (Or.inr (Or.inr (Or.inr ⟨8, 5, .LUSD, rfl⟩)))
    (by unfold RatioInv ratioSpec; norm_num)
    rfl

/-! ## C6 — RedeemSenior semantics -/

theorem getAcct_recalc (y : GlobalState) (a : Addr) :
    getAcct (recalculate_ratios y) a = getAcct y a := by
  unfold getAcct
  rw [recalculate_ratios_accounts]

/-- C6 counterexample: the claim as stated fails on a state where the
sender's balance exceeds the total supply.  With balance 1000, supply 0,
breaker off and `reserve_ratio = 1 ≥ 0.95`, `RedeemSenior{1000}` takes the
non-queued path, deducts the balance, then fails on the supply underflow —
so the instruction errors (and even leaves the balance deducted) instead of
performing the claimed deductions. -/
theorem claim_C6_cex :
    (0 : Nat) < 1000 ∧
    1000 ≤ (getAcct { accounts := [(5, { lusd_balance := 1000 })], reserve_ratio := 1 } 5).lusd_balance ∧
    ({ accounts := [(5, { lusd_balance := 1000 })], reserve_ratio := 1 } : GlobalState).circuit_breaker_active = false ∧
    ¬ (({ accounts := [(5, { lusd_balance := 1000 })], reserve_ratio := 1 } : GlobalState).reserve_ratio < stressThreshold) ∧
    (execute_si allOkEnv 1 0 (.RedeemSenior 1000) 5
      { accounts := [(5, { lusd_balance := 1000 })], reserve_ratio := 1 }).1 = false ∧
    (getAcct (execute_si allOkEnv 1 0 (.RedeemSenior 1000) 5
      { accounts := [(5, { lusd_balance := 1000 })], reserve_ratio := 1 }).2 5).lusd_balance = 0 := by
  refine ⟨by norm_num, by norm_num [getAcct, List.lookup], rfl, ?_, rfl, rfl⟩
  norm_num [stressThreshold]

/-- C6 (amended): for every state and sender with
`lusd_balance ≥ amount > 0`:
if the circuit breaker is on or `reserve_ratio < 0.95`, `RedeemSenior{amount}`
deducts `amount` from the sender's LUSD balance, appends one
`RedemptionRequest{sender, amount, timestamp}` at the tail of
`fair_redeem_queue`, and leaves `total_lusd_supply` and
`stabilization_pool_balance` unchanged; otherwise — provided additionally
`total_lusd_supply ≥ amount` — it deducts `amount` from the balance, the
supply and the pool (pool saturating) and recomputes the reserve ratio;
when instead `total_lusd_supply < amount`, the instruction fails with an
underflow error. -/
theorem claim_C6_amended (env : CryptoEnv) (height tstamp : Nat)
    (sender : Addr) (amount : Nat) (s : GlobalState)
    (h1 : 0 < amount)
    (h2 : amount ≤ (getAcct s sender).lusd_balance) :
    ((s.circuit_breaker_active = true ∨ s.reserve_ratio < stressThreshold) →
      (execute_si env height tstamp (.RedeemSenior amount) sender s).1 = true ∧
      (getAcct (execute_si env height tstamp (.RedeemSenior amount) sender s).2
        sender).lusd_balance = (getAcct s sender).lusd_balance - amount ∧
      (execute_si env height tstamp (.RedeemSenior amount) sender
        s).2.fair_redeem_queue =
        s.fair_redeem_queue ++
          [{ address := sender, amount := amount, timestamp := tstamp }] ∧
      (execute_si env height tstamp (.RedeemSenior amount) sender
        s).2.total_lusd_supply = s.total_lusd_supply ∧
      (execute_si env height tstamp (.RedeemSenior amount) sender
        s).2.stabilization_pool_balance = s.stabilization_pool_balance) ∧
    ((s.circuit_breaker_active = false ∧ ¬ s.reserve_ratio < stressThreshold ∧
        amount ≤ s.total_lusd_supply) →
      (execute_si env height tstamp (.RedeemSenior amount) sender s).1 = true ∧
      (getAcct (execute_si env height tstamp (.RedeemSenior amount) sender s).2
        sender).lusd_balance = (getAcct s sender).lusd_balance - amount ∧
      (execute_si env height tstamp (.RedeemSenior amount) sender
        s).2.total_lusd_supply = s.total_lusd_supply - amount ∧
      (execute_si env height tstamp (.RedeemSenior amount) sender
        s).2.stabilization_pool_balance =
          s.stabilization_pool_balance - amount ∧
      RatioInv (execute_si env height tstamp (.RedeemSenior amount) sender
        s).2) ∧
    ((s.circuit_breaker_active = false ∧ ¬ s.reserve_ratio < stressThreshold ∧
        s.total_lusd_supply < amount) →
      (execute_si env height tstamp (.RedeemSenior amount) sender s).1 =
        false) := by
  have hne : ¬ (amount = 0) := by omega
  rcases hE : execute_si env height tstamp (.RedeemSenior amount) sender s
    with ⟨ok, s'⟩
  simp only [execute_si] at hE
  rw [if_neg hne] at hE
  simp only [getAcct_touchAcct_self, touchAcct_breaker, touchAcct_ratio,
    touchAcct_queue] at hE
  rw [if_neg (not_lt.mpr h2)] at hE
  split at hE
  · next hc =>
    -- queued path
    split at hE
    · next heq =>
      exfalso
      simp [checkedSub, h2] at heq
    · next b heq =>
      simp only [checkedSub, if_pos h2, Option.some.injEq] at heq
      simp only [eOk_def, Prod.mk.injEq] at hE
      obtain ⟨hok, hs⟩ := hE
      refine ⟨fun _ => ?_, fun hx => ?_, fun hx => ?_⟩
      · refine ⟨hok.symm, ?_, ?_, ?_, ?_⟩
        · rw [← hs, getAcct_updAcct_self, ← heq]
        · rw [← hs]
          simp
        · rw [← hs]
          simp
        · rw [← hs]
          simp
      · exfalso
        rcases hc with hc | hc
        · rw [hx.1] at hc
          exact Bool.noConfusion hc
        · exact hx.2.1 hc
      · exfalso
        rcases hc with hc | hc
        · rw [hx.1] at hc
          exact Bool.noConfusion hc
        · exact hx.2.1 hc
  · next hc =>
    split at hE
    · next heq =>
      exfalso
      simp [checkedSub, h2] at heq
    · next b heq =>
      simp only [checkedSub, if_pos h2, Option.some.injEq] at heq
      simp only [updAcct_supply, touchAcct_supply] at hE
      split at hE
      · next heq2 =>
        -- supply underflow: the instruction fails
        simp only [eErr_def, Prod.mk.injEq] at hE
        obtain ⟨hok, _⟩ := hE
        refine ⟨fun hx => absurd hx hc, fun hx => ?_, fun _ => hok.symm⟩
        exfalso
        simp [checkedSub, hx.2.2] at heq2
      · next sup heq2 =>
        simp only [eOk_def, Prod.mk.injEq] at hE
        obtain ⟨hok, hs⟩ := hE
        have hacc : ∀ (y : GlobalState) (n p : Nat),
            getAcct { y with
              total_lusd_supply := n
              stabilization_pool_balance := p } sender = getAcct y sender :=
          fun _ _ _ => rfl
        refine ⟨fun hx => absurd hx hc, fun hx => ?_, fun hx => ?_⟩
        · have hsup : sup = s.total_lusd_supply - amount := by
            simp only [checkedSub, if_pos hx.2.2, Option.some.injEq] at heq2
            exact heq2.symm
          refine ⟨hok.symm, ?_, ?_, ?_, ?_⟩
          · rw [← hs, getAcct_recalc, hacc, getAcct_updAcct_self, ← heq]
          · rw [← hs, recalculate_ratios_supply]
            exact hsup
          · rw [← hs, recalculate_ratios_pool]
            simp [satSub]
          · rw [← hs]
            exact recalculate_ratios_ratio _
        · exfalso
          simp only [checkedSub,
            if_neg (by omega : ¬ amount ≤ s.total_lusd_supply)] at heq2
          exact Option.noConfusion heq2


/-- Closed witness for the amended C6: scenario S3 of the spec — balance
5000, supply 5000, ratio 0.90 < 0.95, so `RedeemSenior{1000}` queues the
request and leaves the supply unchanged. -/
theorem claim_C6_amended_witness :
    (execute_si allOkEnv 1 7 (.RedeemSenior 1000) 5
      { accounts := [(5, { lusd_balance := 5000 })], total_lusd_supply := 5000, stabilization_pool_balance := 4500, reserve_ratio := mkRat 9 10 }).2.fair_redeem_queue =
      [{ address := 5, amount := 1000, timestamp := 7 }] ∧
    (execute_si allOkEnv 1 7 (.RedeemSenior 1000) 5
      { accounts := [(5, { lusd_balance := 5000 })], total_lusd_supply := 5000, stabilization_pool_balance := 4500, reserve_ratio := mkRat 9 10 }).2.total_lusd_supply = 5000 := by
  have h := claim_C6_amended allOkEnv 1 7 5 1000
    { accounts := [(5, { lusd_balance := 5000 })], total_lusd_supply := 5000, stabilization_pool_balance := 4500, reserve_ratio := mkRat 9 10 }
    (by norm_num) (by decide)
  have hA := h.1 (Or.inr (by decide))
  refine ⟨?_, hA.2.2.2.1⟩
  rw [hA.2.2.1]
  rfl

/-! ## C10 — MintWithCreditScore fallback mints nothing -/

/-- The `MintSenior` arm rejects an empty proof (or zero collateral) before
any state mutation. -/
theorem exec_mint_senior_empty_proof (env : CryptoEnv) (a c : Nat)
    (sender : Addr) (s : GlobalState) :
    exec_mint_senior env a c [] sender s = (false, s) := by
  unfold exec_mint_senior
  split
  · rfl
  · rw [if_pos rfl]
    rfl

/-- C10: whenever `MintWithCreditScore` (non-zero amount) takes the
fallback path — untrusted oracle, failing credit proof, replayed proof id,
or derived score below the threshold — it re-dispatches `MintSenior` with
an empty proof, which errors before any mutation: the call fails and the
state is completely unchanged. -/
theorem claim_C10 (env : CryptoEnv) (height tstamp : Nat)
    (amount coll : Nat) (proof : Bytes) (thr : Nat) (oracle : Addr)
    (sender : Addr) (s : GlobalState)
    (hamount : ¬ amount = 0)
    (hfb : s.trusted_credit_oracles.contains oracle = false ∨
      env.verifyCredit proof = false ∨
      s.used_credit_proofs.contains (env.hashBytes proof) = true ∨
      300 + env.rawScore proof % 551 < thr) :
    execute_si env height tstamp
      (.MintWithCreditScore amount coll proof thr oracle) sender s =
      (false, s) := by
  simp only [execute_si]
  rw [if_neg hamount]
  by_cases hcond : (s.trusted_credit_oracles.contains oracle = false ∨
      env.verifyCredit proof = false ∨
      s.used_credit_proofs.contains (env.hashBytes proof) = true)
  · rw [if_pos hcond]
    exact exec_mint_senior_empty_proof env amount coll sender s
  · rw [if_neg hcond]
    rcases hfb with h | h | h | h
    · exact absurd (Or.inl h) hcond
    · exact absurd (Or.inr (Or.inl h)) hcond
    · exact absurd (Or.inr (Or.inr h)) hcond
    · rw [if_pos h]
      exact exec_mint_senior_empty_proof env amount coll sender s

/-- Closed witness for C10: fresh state (no trusted oracles), so the
fallback is taken and the call fails without touching the state. -/
theorem claim_C10_witness :
    execute_si allOkEnv 1 0 (.MintWithCreditScore 100 200 [3] 0 99) 7 {} =
      (false, ({} : GlobalState)) :=
  claim_C10 allOkEnv 1 0 100 200 [3] 0 99 7 {} (by norm_num) (Or.inl rfl)

/-! ## C9 — RecoverSocial: guardian uniqueness and the threshold gate -/

/-- A guardian returned by the scan is registered, unused so far, and
verifies the signature. -/
theorem findGuardian_spec (env : CryptoEnv) (msg sig : Bytes)
    (used : List Addr) :
    ∀ (gs : List Addr) (g : Addr),
      findGuardian env msg sig used gs = some g →
      g ∈ gs ∧ used.contains g = false ∧ env.verifySig g msg sig = true := by
  intro gs
  induction gs with
  | nil =>
    intro g h
    exact absurd h (by simp [findGuardian])
  | cons x rest ih =>
    intro g h
    unfold findGuardian at h
    split at h
    · obtain ⟨h1, h2, h3⟩ := ih g h
      exact ⟨List.mem_cons_of_mem _ h1, h2, h3⟩
    · next hused =>
      split at h
      · next hver =>
        injection h with h'
        subst h'
        exact ⟨List.mem_cons_self _ _, by simpa using hused, hver⟩
      · obtain ⟨h1, h2, h3⟩ := ih g h
        exact ⟨List.mem_cons_of_mem _ h1, h2, h3⟩

/-- Invariant of the `RecoverSocial` signature loop: the used-guardian list
has no duplicates, only registered guardians, its length is the verified
count, and the count grows by at most one per signature. -/
theorem recoverFold_invariant (env : CryptoEnv) (msg : Bytes)
    (gs : List Addr) :
    ∀ (sigs : List Bytes) (used : List Addr) (count : Nat),
      used.Nodup → (∀ x ∈ used, x ∈ gs) → count = used.length →
      (sigs.foldl (recoverStep env msg gs) (used, count)).1.Nodup ∧
      (∀ x ∈ (sigs.foldl (recoverStep env msg gs) (used, count)).1, x ∈ gs) ∧
      (sigs.foldl (recoverStep env msg gs) (used, count)).2 =
        (sigs.foldl (recoverStep env msg gs) (used, count)).1.length ∧
      (sigs.foldl (recoverStep env msg gs) (used, count)).2 ≤
        count + sigs.length := by
  intro sigs
  induction sigs with
  | nil =>
    intro used count h1 h2 h3
    simp only [List.foldl_nil]
    exact ⟨h1, h2, h3, by omega⟩
  | cons sig rest ih =>
    intro used count h1 h2 h3
    simp only [List.foldl_cons, recoverStep]
    split
    · next g hgg =>
      obtain ⟨hmem, hnotused, _⟩ :=
        findGuardian_spec env msg sig used gs g hgg
      have hnodup : (used ++ [g]).Nodup := by
        rw [List.nodup_append]
        refine ⟨h1, List.nodup_singleton g, ?_⟩
        intro a ha hb
        rw [List.mem_singleton] at hb
        subst hb
        have : used.contains a = true := List.elem_eq_true_of_mem ha
        rw [this] at hnotused
        exact Bool.noConfusion hnotused
      have hsub : ∀ x ∈ used ++ [g], x ∈ gs := by
        intro x hx
        rcases List.mem_append.mp hx with hx | hx
        · exact h2 x hx
        · rw [List.mem_singleton] at hx
          exact hx ▸ hmem
      have hlen : count + 1 = (used ++ [g]).length := by
        simp [h3]
      obtain ⟨a1, a2, a3, a4⟩ := ih (used ++ [g]) (count + 1) hnodup hsub hlen
      refine ⟨a1, a2, a3, ?_⟩
      simp only [List.length_cons]
      omega
    · obtain ⟨a1, a2, a3, a4⟩ := ih used count h1 h2 h3
      refine ⟨a1, a2, a3, ?_⟩
      simp only [List.length_cons]
      omega

/-- C9: for every account with a non-empty guardian list and every
`RecoverSocial{new_device_key, sigs}` with threshold
`⌊|guardians|/2⌋ + 1`: the loop binds each signature to at most one
not-yet-used registered guardian and consumes each guardian at most once
(the used list is duplicate-free, contains only registered guardians, and
its length is the verified count, which never exceeds the number of
supplied signatures); the instruction succeeds if and only if the verified
count reaches the threshold, and on success the account's
`passkey_device_key` becomes the new device key. -/
theorem claim_C9 (env : CryptoEnv) (height tstamp : Nat) (sender : Addr)
    (ndk : Bytes) (sigs : List Bytes) (s : GlobalState)
    (hg : (getAcct s sender).guardians ≠ []) :
    ((recoverFold env ndk (getAcct s sender).guardians sigs).1.Nodup ∧
     (∀ x ∈ (recoverFold env ndk (getAcct s sender).guardians sigs).1,
        x ∈ (getAcct s sender).guardians) ∧
     (recoverFold env ndk (getAcct s sender).guardians sigs).2 =
       (recoverFold env ndk (getAcct s sender).guardians sigs).1.length ∧
     (recoverFold env ndk (getAcct s sender).guardians sigs).2 ≤
       sigs.length) ∧
    ((execute_si env height tstamp (.RecoverSocial ndk sigs) sender s).1 =
        true ↔
      (getAcct s sender).guardians.length / 2 + 1 ≤
        (recoverFold env ndk (getAcct s sender).guardians sigs).2) ∧
    ((execute_si env height tstamp (.RecoverSocial ndk sigs) sender s).1 =
        true →
      (getAcct (execute_si env height tstamp (.RecoverSocial ndk sigs)
        sender s).2 sender).passkey_device_key = some ndk) := by
  have hinv := recoverFold_invariant env ndk (getAcct s sender).guardians
    sigs [] 0 List.nodup_nil (by intro x hx; exact absurd hx (by simp)) rfl
  have hinv' : (recoverFold env ndk (getAcct s sender).guardians sigs).1.Nodup ∧
      (∀ x ∈ (recoverFold env ndk (getAcct s sender).guardians sigs).1,
        x ∈ (getAcct s sender).guardians) ∧
      (recoverFold env ndk (getAcct s sender).guardians sigs).2 =
        (recoverFold env ndk (getAcct s sender).guardians sigs).1.length ∧
      (recoverFold env ndk (getAcct s sender).guardians sigs).2 ≤
        sigs.length := by
    unfold recoverFold
    simpa using hinv
  refine ⟨hinv', ?_, ?_⟩ <;>
    simp only [execute_si, getAcct_touchAcct_self]
  · rw [if_neg hg]
    by_cases hlen : sigs.length <
        (getAcct s sender).guardians.length / 2 + 1
    · rw [if_pos hlen]
      constructor
      · intro h
        exact absurd h (by simp [eErr_def])
      · intro h
        exfalso
        have := hinv'.2.2.2
        omega
    · rw [if_neg hlen]
      by_cases hcnt : (recoverFold env ndk (getAcct s sender).guardians
          sigs).2 < (getAcct s sender).guardians.length / 2 + 1
      · rw [if_pos hcnt]
        constructor
        · intro h
          exact absurd h (by simp [eErr_def])
        · intro h
          omega
      · rw [if_neg hcnt]
        constructor
        · intro _
          omega
        · intro _
          rfl
  · rw [if_neg hg]
    by_cases hlen : sigs.length <
        (getAcct s sender).guardians.length / 2 + 1
    · rw [if_pos hlen]
      intro h
      exact absurd h (by simp [eErr_def])
    · rw [if_neg hlen]
      by_cases hcnt : (recoverFold env ndk (getAcct s sender).guardians
          sigs).2 < (getAcct s sender).guardians.length / 2 + 1
      · rw [if_pos hcnt]
        intro h
        exact absurd h (by simp [eErr_def])
      · rw [if_neg hcnt]
        intro _
        exact congrArg (fun a : AccountState => a.passkey_device_key)
          (getAcct_updAcct_self (touchAcct s sender) sender _)

/-- Closed witness for C9: scenario S4 — three guardians, two distinct
valid signatures meet the threshold 2 and install the new device key. -/
theorem claim_C9_witness :
    (execute_si { allOkEnv with
        verifySig := fun g _ sig => sig.head? == some g } 1 0
      (.RecoverSocial [9, 9] [[1], [2]]) 4
      { accounts := [(4, { guardians := [1, 2, 3] })] }).1 = true ∧
    (getAcct (execute_si { allOkEnv with
        verifySig := fun g _ sig => sig.head? == some g } 1 0
      (.RecoverSocial [9, 9] [[1], [2]]) 4
      { accounts := [(4, { guardians := [1, 2, 3] })] }).2
        4).passkey_device_key = some [9, 9] := by
  have h := claim_C9 { allOkEnv with
      verifySig := fun g _ sig => sig.head? == some g } 1 0 4 [9, 9]
    [[1], [2]] { accounts := [(4, { guardians := [1, 2, 3] })] } (by decide)
  have hsucc := h.2.1.mpr (by decide)
  exact ⟨hsucc, h.2.2 hsucc⟩

/-! ## C7: fork choice -/

theorem hashGtBytes_iff :
    ∀ (a b : List Nat), a.length = b.length →
      (hashGtBytes a b = true ↔ LexGtSpec a b) := by
  intro a
  induction a with
  | nil =>
    intro b hl
    cases b with
    | nil =>
      simp only [hashGtBytes, LexGtSpec, List.length_nil]
      constructor
      · intro h; exact absurd h (by simp)
      · rintro ⟨i, hi, -, -⟩; omega
    | cons y ys => simp at hl
  | cons x xs ih =>
    intro b hl
    cases b with
    | nil => simp at hl
    | cons y ys =>
      simp only [List.length_cons] at hl
      have hl' : xs.length = ys.length := by omega
      by_cases h1 : y < x
      · simp only [hashGtBytes, if_pos h1, LexGtSpec]
        constructor
        · intro _
          refine ⟨0, by simp, fun j hj => by omega, by simpa using h1⟩
        · intro _; trivial
      · by_cases h2 : x < y
        · simp only [hashGtBytes, if_neg h1, if_pos h2, LexGtSpec]
          constructor
          · intro h; exact absurd h (by simp)
          · rintro ⟨i, hi, hpre, hgt⟩
            cases i with
            | zero => simp only [List.getD_cons_zero] at hgt; omega
            | succ k =>
              have := hpre 0 (Nat.succ_pos k)
              simp only [List.getD_cons_zero] at this
              omega
        · have hxy : x = y := by omega
          subst hxy
          simp only [hashGtBytes, if_neg h1, if_neg h2]
          rw [ih ys hl']
          unfold LexGtSpec
          constructor
          · rintro ⟨i, hi, hpre, hgt⟩
            refine ⟨i + 1, ?_, ?_, ?_⟩
            · simp only [List.length_cons]; omega
            · intro j hj
              cases j with
              | zero => simp
              | succ k =>
                simp only [List.getD_cons_succ]
                exact hpre k (by omega)
            · simpa using hgt
          · rintro ⟨i, hi, hpre, hgt⟩
            cases i with
            | zero => simp only [List.getD_cons_zero] at hgt; omega
            | succ k =>
              refine ⟨k, ?_, ?_, ?_⟩
              · simp only [List.length_cons] at hi; omega
              · intro j hj
                have := hpre (j + 1) (by omega)
                simpa using this
              · simpa using hgt

/-- C7: the fork-choice of `import_block_and_maybe_reorg` adopts a new
block `(hc, Hc)` over the current tip `(ht, Ht)` exactly when the candidate
height is greater, or the heights are equal and the candidate hash is
lexicographically greater as a 32-byte value. -/
theorem claim_C7 (hc ht : Nat) (Hc Ht : List Nat)
    (hlc : Hc.length = 32) (hlt : Ht.length = 32) :
    (fork_choice_prefers hc Hc ht Ht = true ↔
      ht < hc ∨ (hc = ht ∧ LexGtSpec Hc Ht)) := by
  unfold fork_choice_prefers
  rw [Bool.or_eq_true, Bool.and_eq_true, decide_eq_true_eq,
    decide_eq_true_eq, hashGtBytes_iff Hc Ht (by omega)]

theorem claim_C7_witness :
    (List.replicate 32 1 : List Nat).length = 32 ∧
    (List.replicate 31 1 ++ [0] : List Nat).length = 32 ∧
    fork_choice_prefers 5 (List.replicate 32 1) 5
      (List.replicate 31 1 ++ [0]) = true ∧
    (5 < 5 ∨ (5 = 5 ∧ LexGtSpec (List.replicate 32 1)
      (List.replicate 31 1 ++ [0]))) := by
  refine ⟨by decide, by decide, by decide, ?_⟩
  exact (claim_C7 5 5 (List.replicate 32 1) (List.replicate 31 1 ++ [0])
    (by decide) (by decide)).mp (by decide)

/-! ## C8: Merkle transactions root -/

theorem dupLastIfOdd_cons_cons {α : Type} (x y : α) (r : List α) :
    dupLastIfOdd (x :: y :: r) = x :: y :: dupLastIfOdd r := by
  have hp : (x :: y :: r).length % 2 = r.length % 2 := by
    simp only [List.length_cons]; omega
  unfold dupLastIfOdd
  rw [hp]
  by_cases ho : r.length % 2 = 1
  · rw [if_pos ho, if_pos ho]
    cases r with
    | nil => simp at ho
    | cons a as =>
      rw [List.getLast?_cons_cons, List.getLast?_cons_cons]
      cases h : (a :: as).getLast? with
      | none => simp at h
      | some l => simp

  · rw [if_neg ho, if_neg ho]

theorem pairAdjacent_dupLast_eq {α : Type} (hc : α → α → α) :
    ∀ (l : List α), pairAdjacent hc (dupLastIfOdd l) = merklePairUp hc l
  | [] => by simp [dupLastIfOdd, pairAdjacent, merklePairUp]
  | [x] => by
    simp [dupLastIfOdd, pairAdjacent, merklePairUp, List.getLast?]
  | x :: y :: r => by
    rw [dupLastIfOdd_cons_cons]
    simp only [pairAdjacent, merklePairUp]
    rw [pairAdjacent_dupLast_eq hc r]

theorem merkleGo_eq_spec {α : Type} (hc : α → α → α) (z : α) :
    ∀ (n : Nat) (l : List α), l.length ≤ n →
      merkleGo hc z l = merkleRootSpec hc z l := by
  intro n
  induction n with
  | zero =>
    intro l hl
    have : l = [] := List.eq_nil_of_length_eq_zero (by omega)
    subst this
    rw [merkleGo, merkleRootSpec]
  | succ n ih =>
    intro l hl
    match l with
    | [] => rw [merkleGo, merkleRootSpec]
    | [x] => rw [merkleGo, merkleRootSpec]
    | x :: y :: rest =>
      rw [merkleGo, merkleRootSpec, pairAdjacent_dupLast_eq]
      apply ih
      have := merklePairUp_length hc (x :: y :: rest)
      simp only [List.length_cons] at *
      omega

/-- C8: `Block::transactions_root` over the ordered transaction ids equals
the root of the binary Merkle tree described by the spec — each level pairs
adjacent nodes, a node without a right sibling is paired with a duplicate
of itself — and the root of the empty list is the zero (all-zero 32-byte)
value. -/
theorem claim_C8 {α : Type} (hc : α → α → α) (z : α) (ids : List α) :
    transactions_root hc z ids = merkleRootSpec hc z ids ∧
    transactions_root hc z ([] : List α) = z :=
  ⟨merkleGo_eq_spec hc z ids.length ids (Nat.le_refl _),
    by rw [transactions_root, merkleGo]⟩

/-! ## C5: circuit-breaker latch -/

@[simp] theorem distributeJuniorShares_breaker (j t : Nat) :
    ∀ (snap : List (Addr × Nat)) (s : GlobalState),
      (distributeJuniorShares j t snap s).circuit_breaker_active =
        s.circuit_breaker_active
  | [], _ => rfl
  | p :: rest, s => by
    show (distributeJuniorShares j t rest _).circuit_breaker_active =
      s.circuit_breaker_active
    rw [distributeJuniorShares_breaker j t rest]
    simp only [apply_ite GlobalState.circuit_breaker_active, updAcct_breaker,
      ite_self]

@[simp] theorem processQueue_breaker :
    ∀ (n : Nat) (s : GlobalState),
      (processQueue n s).circuit_breaker_active = s.circuit_breaker_active
  | 0, _ => rfl
  | n + 1, s => by
    simp only [processQueue]
    split
    · rfl
    · rw [processQueue_breaker n]

/-- `recalculate_ratios` writes the breaker flag monotonically: it is left
as-is except that it is forced on when the freshly computed ratio is below
the 0.85 threshold. -/
@[simp] theorem recalculate_ratios_breaker_eq (s : GlobalState) :
    (recalculate_ratios s).circuit_breaker_active =
      (s.circuit_breaker_active ||
        (!(s.total_lusd_supply == 0) &&
          decide (mkRat (s.stabilization_pool_balance : Int)
            s.total_lusd_supply < breakerThreshold))) := by
  unfold recalculate_ratios
  by_cases h : s.total_lusd_supply = 0
  · simp [h]
  · simp only [if_neg h]
    split
    · rename_i hr; simp [h, hr]
    · rename_i hr; simp [h, hr]

/-- Step facts for the shared `exec_mint_senior` path: success requires
the breaker to be off, and the final state went through
`recalculate_ratios`, so a final ratio below the threshold forces the
breaker on. -/
theorem exec_mint_senior_step (env : CryptoEnv)
    (amount collateral_amount : Nat) (proof : Bytes) (sender : Addr)
    (s s' : GlobalState)
    (hok : exec_mint_senior env amount collateral_amount proof sender s =
      (true, s')) :
    s.circuit_breaker_active = false ∧
    (s'.reserve_ratio < breakerThreshold →
      s'.circuit_breaker_active = true) := by
  unfold exec_mint_senior at hok
  repeat' first
    | (split at hok)
    | (simp only [] at hok)
    | (exact Bool.noConfusion (congrArg Prod.fst hok))
  simp only [eOk_def, Prod.mk.injEq, true_and] at hok
  subst hok
  exact ⟨by simp_all, fun hlt => recalculate_ratios_trigger _ hlt⟩

set_option maxHeartbeats 4000000 in
set_option maxRecDepth 200000 in
/-- Per-step breaker facts over every instruction arm: a set breaker
survives any successful instruction other than `RunCircuitBreaker{false}`,
and any successful instruction that moves the reserve ratio below the 0.85
threshold leaves the breaker on. -/
theorem breaker_step_facts (env : CryptoEnv) (height tstamp : Nat)
    (si : StablecoinInstruction) (sender : Addr) (s s' : GlobalState)
    (hok : execute_si env height tstamp si sender s = (true, s')) :
    ((si ≠ StablecoinInstruction.RunCircuitBreaker false ∧
        s.circuit_breaker_active = true) → s'.circuit_breaker_active = true) ∧
    (s'.reserve_ratio < breakerThreshold →
      s'.reserve_ratio ≠ s.reserve_ratio →
      s'.circuit_breaker_active = true) := by
  cases si
  case RunCircuitBreaker active =>
    simp only [execute_si] at hok
    simp only [eOk_def, Prod.mk.injEq, true_and] at hok
    subst hok
    refine ⟨fun hpre => ?_, fun hlt hch => ?_⟩
    · cases active
      · exact absurd rfl hpre.1
      · rfl
    · exact absurd rfl hch
  all_goals simp only [execute_si] at hok
  all_goals
    repeat' first
      | (split at hok)
      | (simp only [] at hok)
      | (exact Bool.noConfusion (congrArg Prod.fst hok))
  all_goals try simp only [eOk_def, Prod.mk.injEq, true_and] at hok
  all_goals try subst hok
  all_goals refine ⟨fun hpre => ?_, fun hlt hch => ?_⟩
  all_goals first
    | (simp only [touchAcct_breaker, updAcct_breaker, compute_health_breaker,
        distributeJuniorShares_breaker, processQueue_breaker,
        recalculate_ratios_breaker_eq, hpre, Bool.true_or]
       done)
    | (simp only [touchAcct_ratio, updAcct_ratio, compute_health_ratio,
        ne_eq, eq_self_iff_true, not_true] at hch
       done)
    | (simp only [touchAcct_ratio, updAcct_ratio, compute_health_ratio,
        ne_eq] at hch
       exact absurd rfl hch)
    | (exact recalculate_ratios_trigger _ hlt)
    | (have hfix := (exec_mint_senior_step _ _ _ _ _ _ _ hok).1
       rw [hfix] at hpre
       exact Bool.noConfusion hpre.2)
    | (exact (exec_mint_senior_step _ _ _ _ _ _ _ hok).2 hlt)

/-- C5 counterexample: from the default state (whose `reserve_ratio`
defaults to 0, i.e. below 0.85, with the breaker off), the successful
operation `RegisterAsset` leaves a state whose reserve ratio is below the
0.85 threshold while `circuit_breaker_active` is still `false`, and no
`RunCircuitBreaker{false}` was ever executed: an operation that does not
recompute the ratio never trips the breaker, refuting
"`reserve_ratio < 0.85` after an operation implies
`circuit_breaker_active = true` in that state". -/
theorem claim_C5_cex :
    ∃ s' : GlobalState,
      execute_si allOkEnv 1 0 (StablecoinInstruction.RegisterAsset "USD" 6) 7
        { } = (true, s') ∧
      s'.reserve_ratio < breakerThreshold ∧
      s'.circuit_breaker_active = false :=
  ⟨_, rfl, by decide, rfl⟩

/-- C5 (amended): the breaker is a latch relative to ratio *recomputation*:
(1) once `circuit_breaker_active` is true it stays true along every
sequence of successfully executed instructions that contains no
`RunCircuitBreaker{active=false}` — in particular no other instruction
ever clears it; and (2) any single successful instruction that changes
`reserve_ratio` to a value below the 0.85 threshold leaves
`circuit_breaker_active = true`.  (An instruction that does not recompute
the ratio trips nothing, even if the stale ratio is below 0.85 — see the
counterexample.) -/
theorem claim_C5_amended (env : CryptoEnv) :
    (∀ (s s' : GlobalState), s.circuit_breaker_active = true →
      ReachNoClear env s s' → s'.circuit_breaker_active = true) ∧
    (∀ (height tstamp : Nat) (si : StablecoinInstruction) (sender : Addr)
      (s s' : GlobalState),
      execute_si env height tstamp si sender s = (true, s') →
      s'.reserve_ratio < breakerThreshold →
      s'.reserve_ratio ≠ s.reserve_ratio →
      s'.circuit_breaker_active = true) := by
  constructor
  · intro s s' hb hreach
    revert hb
    induction hreach with
    | refl t => exact fun hb => hb
    | step height tstamp si sender hne hok htail ih =>
      intro hb
      exact ih
        ((breaker_step_facts env height tstamp si sender _ _ hok).1 ⟨hne, hb⟩)
  · intro height tstamp si sender s s' hok hlt hch
    exact (breaker_step_facts env height tstamp si sender s s' hok).2 hlt hch

theorem claim_C5_amended_witness :
    (execute_si allOkEnv 1 0
      (StablecoinInstruction.MintSenior 1000 500 [1]) 7
      { }).2.circuit_breaker_active = true :=
  (claim_C5_amended allOkEnv).2 1 0
    (StablecoinInstruction.MintSenior 1000 500 [1]) 7 { }
    (execute_si allOkEnv 1 0
      (StablecoinInstruction.MintSenior 1000 500 [1]) 7 { }).2
    rfl (by decide) (by decide)

end Lumina
